import Mathlib

/-!
# Shallow embedding of `joy/src/joy_node_win.cpp`

The file embeds the body of `Joystick::main`:

* the deadzone normalisation (lines 86-102) and the parameter conversions
  (lines 113-116),
* device discovery (lines 154-174),
* the event switch (lines 183-271) and the surrounding poll / publish / sleep
  loop (lines 151-290).

Modelling conventions.

* `double` and `float` quantities are rationals (`ℚ`); comparisons are the ones
  the code performs.  The calibration arithmetic has two readings: the exact one
  (`parameterConversions`, `deadzoneValue`, `axisValue`), used by the event switch,
  and the IEEE 754 one (`parameterConversionsIEEE`, `deadzoneValueIEEE`,
  `axisValueIEEE`), in which every operation is rounded to binary64 and every
  store into a `float` to binary32, to nearest with ties to even.
* `Sint16`, `Sint32`, `Uint8`, `int` values are `Int` / `Nat`; the one narrowing
  store of the code (`_gameControllerIndex = i`, an `int` into an `int16_t`) is
  wrapped explicitly by `toInt16`.
* `std::vector::operator[]` does no bounds check; an access outside the vector
  is undefined behaviour and is modelled by the result `Except.error`.
* `ROS_WARN` / `ROS_ERROR` calls append to a log; `std::cout` output and the
  message time stamp are not modelled.
* Constants of the SDL headers, which are not part of the repository, are taken
  as the parameter `SDLConsts`.
* Calls that only refresh SDL or ROS internals (`SDL_JoystickUpdate`,
  `ros::spinOnce`) have no effect on the modelled state; what SDL reports to the
  code (connected devices, queued events) is an input of each iteration.
* The parameters `autorepeat_rate`, `coalesce_interval`, `sticky_buttons`,
  `default_trig_val` are read by `main` but never used by the loop.
-/

namespace Joy

/-! ## Data model -/

/-- Undefined behaviour reached by the code. -/
inductive Fault where
  | vectorIndexOutOfRange
  deriving DecidableEq, Repr

/-- The `ROS_WARN` / `ROS_ERROR` reports issued inside the loop of `Joystick::main`. -/
inductive LogMsg where
  /-- Report `ROS_ERROR("SDL reported a game controller, but would not open it! ...")`, line 165. -/
  | errorWouldNotOpen
  /-- Report `ROS_WARN("Axis triggered")`, line 205. -/
  | warnAxisTriggered
  /-- Report `ROS_WARN("e.jhat.hat = %d", e.jhat.hat)`, line 231. -/
  | warnHat (hat : Nat)
  /-- Report `ROS_WARN("DPad Released")`, line 237. -/
  | warnDPadReleased
  /-- Report `ROS_WARN("DPad Up")`, line 241. -/
  | warnDPadUp
  /-- Report `ROS_WARN("DPad Down")`, line 245. -/
  | warnDPadDown
  /-- Report `ROS_WARN("DPad Left")`, line 249. -/
  | warnDPadLeft
  /-- Report `ROS_WARN("DPad Right")`, line 253. -/
  | warnDPadRight
  deriving DecidableEq, Repr

/-- Constants of `SDL.h` / `SDL_gamecontroller.h` used by `Joystick::main`; the
headers are not part of the repository, so the values are parameters. -/
structure SDLConsts where
  HAT_CENTERED : Nat
  HAT_UP : Nat
  HAT_RIGHT : Nat
  HAT_DOWN : Nat
  HAT_LEFT : Nat
  CONTROLLER_AXIS_MAX : Nat
  CONTROLLER_BUTTON_MAX : Nat
  deriving DecidableEq, Repr

/-- The five hat codes the code compares against are pairwise different. -/
def SDLConsts.HatCodesDistinct (K : SDLConsts) : Prop :=
  [K.HAT_CENTERED, K.HAT_UP, K.HAT_DOWN, K.HAT_LEFT, K.HAT_RIGHT].Nodup

instance (K : SDLConsts) : Decidable K.HatCodesDistinct :=
  inferInstanceAs (Decidable (List.Nodup _))

/-- The values the SDL 2.0 headers give to the constants (`SDL_HAT_*` of
`SDL_joystick.h`, `SDL_CONTROLLER_*_MAX` of `SDL_gamecontroller.h`). -/
def sdl2 : SDLConsts where
  HAT_CENTERED := 0
  HAT_UP := 1
  HAT_RIGHT := 2
  HAT_DOWN := 4
  HAT_LEFT := 8
  CONTROLLER_AXIS_MAX := 6
  CONTROLLER_BUTTON_MAX := 15

/-- The fields of `sensor_msgs::Joy` the code writes: `float32[] axes` and
`int32[] buttons` (the header time stamp is not modelled). -/
structure JoyMsg where
  axes : List ℚ
  buttons : List Int
  deriving DecidableEq

/-- The variant of the `SDL_Event` union selected by `e.type`, with the fields the
switch reads.  `other` stands for every event type without a `case`. -/
inductive SDL_Event where
  /-- Event `SDL_JOYAXISMOTION`: `e.jaxis.which`, `e.jaxis.axis`, `e.jaxis.value`. -/
  | jaxis (which : Int) (axis : Nat) (value : Int)
  /-- Event `SDL_JOYBUTTONDOWN`: `e.jbutton.which`, `e.jbutton.button`. -/
  | jbuttonDown (which : Int) (button : Nat)
  /-- Event `SDL_JOYBUTTONUP`: `e.jbutton.which`, `e.jbutton.button`. -/
  | jbuttonUp (which : Int) (button : Nat)
  /-- Event `SDL_JOYHATMOTION`: `e.jhat.which`, `e.jhat.hat`, `e.jhat.value`. -/
  | jhat (which : Int) (hat : Nat) (value : Nat)
  /-- Event `SDL_JOYDEVICEREMOVED`: the `which` field (read through `e.jaxis.which`). -/
  | jdeviceRemoved (which : Int)
  /-- Any other event type. -/
  | other (type : Nat)
  deriving DecidableEq

/-- What SDL answers about the device at one index during discovery:
`SDL_IsGameController(i)` and the result of `SDL_JoystickOpen(i)`
(`none` is the null pointer). -/
structure Device where
  isGameController : Bool
  joystickOpen : Option Nat
  deriving DecidableEq, Repr

/-- The two `ros::Rate` objects of `main`: `loop_rate(100)` and `nojoy_rate(1)`. -/
inductive Rate where
  | loop_rate
  | nojoy_rate
  deriving DecidableEq, Repr

/-- Frequency of a rate object in Hz (lines 119-120). -/
def Rate.hz : Rate → Nat
  | .loop_rate => 100
  | .nojoy_rate => 1

/-- The values of `main` fixed before the loop: the local `scale` and the member
`_unscaled_deadzone`. -/
structure Calib where
  scale : ℚ
  unscaled_deadzone : ℚ
  deriving DecidableEq

/-- The mutable state of the loop of `Joystick::main`: the members
`_gameController` (`none` is `nullptr`) and `_gameControllerIndex`, the local
`joy_msg`, the messages passed to `_joystickPublisher.publish` (oldest first) and
the log. -/
structure MainState where
  gameController : Option Nat
  gameControllerIndex : Int
  joy_msg : JoyMsg
  published : List JoyMsg
  log : List LogMsg
  deriving DecidableEq

/-! ## Calibration (lines 86-116) -/

/-- Lines 86-102: the three consecutive `if`s that normalise `_deadzone`. -/
def normalizeDeadzone (deadzone : ℚ) : ℚ :=
  let d1 := if deadzone ≥ 1 then deadzone / 32767 else deadzone
  let d2 := if d1 > 9 / 10 then 9 / 10 else d1
  let d3 := if d2 < 0 then 0 else d2
  d3

/-- Lines 115-116 read in exact arithmetic: `scale = -1. / (1. - _deadzone) / 32767.`
and `_unscaled_deadzone = 32767. * _deadzone` (see `parameterConversionsIEEE` for the
same lines with the rounding of each operation). -/
def parameterConversions (deadzone : ℚ) : Calib where
  scale := -1 / (1 - deadzone) / 32767
  unscaled_deadzone := 32767 * deadzone

/-- Lines 190-202 read in exact arithmetic: `float value = e.jaxis.value;` followed
by the deadzone `if / else if / else` (see `deadzoneValueIEEE` for the same lines
with their rounding). -/
def deadzoneValue (unscaled_deadzone : ℚ) (raw : Int) : ℚ :=
  let value : ℚ := (raw : ℚ)
  if value > unscaled_deadzone then value - unscaled_deadzone
  else if value < -unscaled_deadzone then value + unscaled_deadzone
  else 0

/-- Line 204, right-hand side, read in exact arithmetic: `value * scale` for a raw
axis value (see `axisValueIEEE` for the rounded product). -/
def axisValue (cal : Calib) (raw : Int) : ℚ :=
  deadzoneValue cal.unscaled_deadzone raw * cal.scale

/-! ## Binary floating point (IEEE 754 binary64 and binary32) -/

/-- Rounding of a rational to the nearest integer, a tie going to the even one. -/
def roundNearestEven (y : ℚ) : Int :=
  let f := ⌊y⌋
  if y - f < 1 / 2 then f
  else if 1 / 2 < y - f then f + 1
  else if f % 2 = 0 then f else f + 1

/-- The value a binary format with `p` significand bits and least quantum `2 ^ emin`
gives to the exact result `x` of an operation, in the default rounding mode (to
nearest, ties to even).  The quantum of `x` is `2 ^ (⌊log₂ |x|⌋ - (p - 1))`, bounded
below by `2 ^ emin` (subnormal range).  Overflow to infinity is not modelled: every
quantity the code computes here stays below `2 ^ 16` in magnitude. -/
def roundBinary (p : Nat) (emin : Int) (x : ℚ) : ℚ :=
  if x = 0 then 0
  else
    let e := max (Int.log 2 |x| - ((p : Int) - 1)) emin
    (roundNearestEven (x / 2 ^ e) : ℚ) * 2 ^ e

/-- Rounding to `double` (binary64): 53 significand bits, least quantum `2 ^ (-1074)`. -/
def fl64 (x : ℚ) : ℚ := roundBinary 53 (-1074) x

/-- Rounding to `float` (binary32): 24 significand bits, least quantum `2 ^ (-149)`. -/
def fl32 (x : ℚ) : ℚ := roundBinary 24 (-149) x

/-- Lines 115-116 with the rounding of every `double` operation:
`scale = -1. / (1. - _deadzone) / 32767.` is a subtraction and two divisions,
`_unscaled_deadzone = 32767. * _deadzone` one multiplication. -/
def parameterConversionsIEEE (deadzone : ℚ) : Calib where
  scale := fl64 (fl64 (-1 / fl64 (1 - deadzone)) / 32767)
  unscaled_deadzone := fl64 (32767 * deadzone)

/-- Lines 190-202 with their rounding: `float value = e.jaxis.value;`, the two
comparisons (exact, `value` promoted to `double`), and `value -= _unscaled_deadzone`
/ `value += _unscaled_deadzone`, computed in `double` and stored back into the
`float`. -/
def deadzoneValueIEEE (unscaled_deadzone : ℚ) (raw : Int) : ℚ :=
  let value : ℚ := fl32 (raw : ℚ)
  if value > unscaled_deadzone then fl32 (fl64 (value - unscaled_deadzone))
  else if value < -unscaled_deadzone then fl32 (fl64 (value + unscaled_deadzone))
  else 0

/-- Line 204 with its rounding: the `double` product `value * scale` stored into the
`float32` slot `joy_msg.axes[...]`. -/
def axisValueIEEE (cal : Calib) (raw : Int) : ℚ :=
  fl32 (fl64 (deadzoneValueIEEE cal.unscaled_deadzone raw * cal.scale))

/-! ## Snapshot writes -/

/-- The store `v[i] = x` on a `std::vector`: defined only for `i < v.size()`. -/
def vecSet {α : Type} (v : List α) (i : Nat) (x : α) : Except Fault (List α) :=
  if i < v.length then .ok (v.set i x) else .error .vectorIndexOutOfRange

/-- The store `joy_msg.buttons[i] = x`. -/
def setButton (st : MainState) (i : Nat) (x : Int) : Except Fault MainState :=
  match vecSet st.joy_msg.buttons i x with
  | .error f => .error f
  | .ok bs => .ok { st with joy_msg := { st.joy_msg with buttons := bs } }

/-- The store `joy_msg.axes[i] = x`. -/
def setAxis (st : MainState) (i : Nat) (x : ℚ) : Except Fault MainState :=
  match vecSet st.joy_msg.axes i x with
  | .error f => .error f
  | .ok as => .ok { st with joy_msg := { st.joy_msg with axes := as } }

/-- A `ROS_WARN` / `ROS_ERROR` call. -/
def report (m : LogMsg) (st : MainState) : MainState :=
  { st with log := st.log ++ [m] }

/-- Lines 125-131: `joy_msg` after the two `resize` calls. -/
def initialJoyMsg (K : SDLConsts) : JoyMsg where
  axes := List.replicate K.CONTROLLER_AXIS_MAX 0
  buttons := List.replicate K.CONTROLLER_BUTTON_MAX 0

/-- State on entry to the loop: `_gameController = nullptr`,
`_gameControllerIndex(-1)`, the resized `joy_msg`, nothing published. -/
def initialState (K : SDLConsts) : MainState where
  gameController := none
  gameControllerIndex := -1
  joy_msg := initialJoyMsg K
  published := []
  log := []

/-- A concrete attached state: the initial state under the SDL 2.0 constants with
device 0 opened (handle 1). -/
def attachedExample : MainState :=
  { initialState sdl2 with gameController := some 1, gameControllerIndex := 0 }

/-! ## Device discovery (lines 154-174) -/

/-- Conversion of an `int` to `int16_t` (the store `_gameControllerIndex = i`). -/
def toInt16 (i : Int) : Int := (i + 32768) % 65536 - 32768

/-- Lines 158-173: the `for` loop from index `i` on; `devs` are the devices at
indices `i, i+1, ...` below `nJoysticks`. -/
def discoverFrom : Nat → List Device → MainState → MainState
  | _, [], st => st
  | i, d :: ds, st =>
    if d.isGameController then
      match d.joystickOpen with
      | none =>
        discoverFrom (i + 1) ds (report .errorWouldNotOpen { st with gameController := none })
      | some h =>
        { st with gameController := some h, gameControllerIndex := toInt16 (i : Int) }
    else discoverFrom (i + 1) ds st

/-- Lines 154-174: discovery runs only while `_gameController == nullptr`. -/
def discover (devs : List Device) (st : MainState) : MainState :=
  if st.gameController.isNone then discoverFrom 0 devs st else st

/-! ## The event switch (lines 183-271) -/

/-- Lines 228-255: the body of `case SDL_JOYHATMOTION` for an event of the tracked
device: the report of line 231 and the five consecutive `if`s. -/
def hatMotion (K : SDLConsts) (st : MainState) (hat value : Nat) : Except Fault MainState :=
  let s0 := report (.warnHat hat) st
  let r1 : Except Fault MainState :=
    if value = K.HAT_CENTERED then
      (((setButton s0 10 0).bind fun s => setButton s 11 0).bind fun s =>
        setButton s 12 0).bind fun s => (setButton s 13 0).map (report .warnDPadReleased)
    else .ok s0
  let r2 := r1.bind fun s =>
    if value = K.HAT_UP then (setButton s 10 1).map (report .warnDPadUp) else .ok s
  let r3 := r2.bind fun s =>
    if value = K.HAT_DOWN then (setButton s 11 1).map (report .warnDPadDown) else .ok s
  let r4 := r3.bind fun s =>
    if value = K.HAT_LEFT then (setButton s 12 1).map (report .warnDPadLeft) else .ok s
  r4.bind fun s =>
    if value = K.HAT_RIGHT then (setButton s 13 1).map (report .warnDPadRight) else .ok s

/-- Lines 183-271: one pass through the `switch (e.type)`. -/
def applyEvent (K : SDLConsts) (cal : Calib) (st : MainState) :
    SDL_Event → Except Fault MainState
  | .jaxis which axis value =>
    if which = st.gameControllerIndex then
      (setAxis st axis (axisValue cal value)).map (report .warnAxisTriggered)
    else .ok st
  | .jbuttonDown _ button => setButton st button 1
  | .jbuttonUp _ button => setButton st button 0
  | .jhat which hat value =>
    if which = st.gameControllerIndex then hatMotion K st hat value else .ok st
  | .jdeviceRemoved which =>
    if which = st.gameControllerIndex then
      .ok { st with gameControllerIndex := -1, gameController := none }
    else .ok st
  | .other _ => .ok st

/-- Lines 179-272: `while (SDL_PollEvent(&e))`, with `events` the queued events in
the order `SDL_PollEvent` returns them. -/
def pollEvents (K : SDLConsts) (cal : Calib) : MainState → List SDL_Event → Except Fault MainState
  | st, [] => .ok st
  | st, e :: es =>
    match applyEvent K cal st e with
    | .error f => .error f
    | .ok st1 => pollEvents K cal st1 es

/-- Line 275: `_joystickPublisher.publish(joy_msg)`. -/
def publish (st : MainState) : MainState :=
  { st with published := st.published ++ [st.joy_msg] }

/-! ## The loop (lines 151-290) -/

/-- Lines 282-289: the rate object whose `sleep()` ends the iteration. -/
def sleepRate (st : MainState) : Rate :=
  if st.gameController.isSome then .loop_rate else .nojoy_rate

/-- Lines 153-289: one iteration of `while (ros::ok())`.  `devs` is what SDL
reports about the connected devices, `events` what `SDL_PollEvent` would hand out.
The result is the state at the end of the iteration and the rate slept on. -/
def iteration (K : SDLConsts) (cal : Calib) (st : MainState) (devs : List Device)
    (events : List SDL_Event) : Except Fault (MainState × Rate) :=
  let st1 := discover devs st
  let r : Except Fault MainState :=
    if st1.gameController.isSome then (pollEvents K cal st1 events).map publish
    else .ok st1
  r.map fun st2 => (st2, sleepRate st2)

/-- The loop run for as many iterations as `ticks` has entries (`ros::ok()` holds
that long); returns the final state and the rates slept on, in order. -/
def run (K : SDLConsts) (cal : Calib) :
    MainState → List (List Device × List SDL_Event) → Except Fault (MainState × List Rate)
  | st, [] => .ok (st, [])
  | st, (devs, events) :: rest =>
    match iteration K cal st devs events with
    | .error f => .error f
    | .ok (st1, r) =>
      match run K cal st1 rest with
      | .error f => .error f
      | .ok (st2, rs) => .ok (st2, r :: rs)

/-! ## Notions used in the statements -/

/-- Everything a hat event must leave alone: the axes, the device session and the
messages already published. -/
def HatFrame (st s : MainState) : Prop :=
  s.joy_msg.axes = st.joy_msg.axes ∧ s.gameController = st.gameController ∧
    s.gameControllerIndex = st.gameControllerIndex ∧ s.published = st.published

/-- A button event of a batch: pressed (`down`) or released, the device it comes
from and the button index. -/
structure ButtonWrite where
  down : Bool
  which : Int
  button : Nat
  deriving DecidableEq, Repr

/-- The `SDL_Event` of a button write. -/
def ButtonWrite.event (b : ButtonWrite) : SDL_Event :=
  if b.down then .jbuttonDown b.which b.button else .jbuttonUp b.which b.button

/-- The slot value a button write stands for: 1 for a press, 0 for a release. -/
def ButtonWrite.value (b : ButtonWrite) : Int := if b.down then 1 else 0

/-- Reference for last-write-wins: the value of the last write of the batch that
addresses slot `j`, if there is one. -/
def lastWrite : List ButtonWrite → Nat → Option Int
  | [], _ => none
  | b :: bs, j =>
    match lastWrite bs j with
    | some x => some x
    | none => if b.button = j then some b.value else none

/-- A device discovery can attach: it reports itself as a game controller and
`SDL_JoystickOpen` succeeds on it. -/
def Device.usable (d : Device) : Bool := d.isGameController && d.joystickOpen.isSome

/-- The stores of an event stay inside a snapshot with `nAxes` axis slots and
`nButtons` button slots (the hat case writes slots up to 13). -/
def EventInRange (nAxes nButtons : Nat) : SDL_Event → Prop
  | .jaxis _ axis _ => axis < nAxes
  | .jbuttonDown _ button => button < nButtons
  | .jbuttonUp _ button => button < nButtons
  | .jhat _ _ _ => 14 ≤ nButtons
  | .jdeviceRemoved _ => True
  | .other _ => True

instance (nAxes nButtons : Nat) (e : SDL_Event) : Decidable (EventInRange nAxes nButtons e) := by
  cases e <;> unfold EventInRange <;> infer_instance

/-- What no event changes: the slot counts and the messages already published. -/
def SameShape (st s : MainState) : Prop :=
  s.joy_msg.axes.length = st.joy_msg.axes.length ∧
    s.joy_msg.buttons.length = st.joy_msg.buttons.length ∧ s.published = st.published

/-- Relative closeness: `x` is `y` times a factor within `c` of 1. -/
def Near (c x y : ℚ) : Prop := ∃ R : ℚ, |R - 1| ≤ c ∧ x = y * R

/-! ## Calibration: theorems -/

/-- Above the threshold the correction subtracts it. -/
theorem deadzoneValue_of_gt (t : ℚ) (v : Int) (h : (v : ℚ) > t) :
    deadzoneValue t v = (v : ℚ) - t := by
  simp [deadzoneValue, h]

/-- Below the negated threshold (threshold not negative) the correction adds it. -/
theorem deadzoneValue_of_lt_neg (t : ℚ) (ht : 0 ≤ t) (v : Int) (h : (v : ℚ) < -t) :
    deadzoneValue t v = (v : ℚ) + t := by
  have h1 : ¬ ((v : ℚ) > t) := by linarith
  simp [deadzoneValue, h1, h]

/-- C2, as stated, fails: the configured deadzone `1.2` is not normalised to `0.9`
(the clamp `min (max d 0) 0.9`) but to `1.2 / 32767`. -/
theorem normalizeDeadzone_not_clamp :
    normalizeDeadzone (6 / 5) = 6 / 163835 ∧
      normalizeDeadzone (6 / 5) ≠ min (max (6 / 5) 0) (9 / 10) := by
  have h : normalizeDeadzone (6 / 5) = 6 / 163835 := by
    unfold normalizeDeadzone; norm_num
  refine ⟨h, ?_⟩
  rw [h]; norm_num

/-- C2, amended: a configured deadzone below 1 is clamped into `[0, 0.9]`; a
configured deadzone of 1 or more is first divided by 32767 and then limited to
`0.9`.  The result is always in `[0, 0.9]`, and `-0.1` is normalised to `0`. -/
theorem normalizeDeadzone_eq (d : ℚ) :
    normalizeDeadzone d
        = (if d < 1 then min (max d 0) (9 / 10) else min (d / 32767) (9 / 10)) ∧
      0 ≤ normalizeDeadzone d ∧ normalizeDeadzone d ≤ 9 / 10 ∧
      normalizeDeadzone (-1 / 10) = 0 := by
  have hval : normalizeDeadzone d
      = (if d < 1 then min (max d 0) (9 / 10) else min (d / 32767) (9 / 10)) := by
    unfold normalizeDeadzone
    by_cases h1 : d < 1
    · have h1' : ¬ (d ≥ 1) := not_le.mpr h1
      simp only [h1, h1', if_true, if_false]
      by_cases h2 : d > 9 / 10
      · have : max d 0 = d := max_eq_left (by linarith)
        have h3 : ¬ ((9 : ℚ) / 10 < 0) := by norm_num
        simp only [h2, if_true, h3, if_false, this]
        exact (min_eq_right (le_of_lt h2)).symm
      · have h2' : d ≤ 9 / 10 := not_lt.mp h2
        simp only [h2, if_false]
        by_cases h3 : d < 0
        · simp only [h3, if_true]
          rw [max_eq_right (le_of_lt h3), min_eq_left (by norm_num)]
        · simp only [h3, if_false]
          rw [max_eq_left (not_lt.mp h3), min_eq_left h2']
    · have h1' : d ≥ 1 := not_lt.mp h1
      have hpos : 0 ≤ d / 32767 := by positivity
      simp only [h1, h1', if_true, if_false]
      by_cases h2 : d / 32767 > 9 / 10
      · have h3 : ¬ ((9 : ℚ) / 10 < 0) := by norm_num
        simp only [h2, if_true, h3, if_false]
        exact (min_eq_right (le_of_lt h2)).symm
      · have h3 : ¬ (d / 32767 < 0) := not_lt.mpr hpos
        simp only [h2, if_false, h3]
        exact (min_eq_left (not_lt.mp h2)).symm
  refine ⟨hval, ?_, ?_, ?_⟩
  · rw [hval]
    split
    · exact le_min (le_max_right _ _) (by norm_num)
    · rename_i h
      exact le_min (div_nonneg (by linarith [not_lt.mp h]) (by norm_num)) (by norm_num)
  · rw [hval]
    split <;> exact min_le_right _ _
  · unfold normalizeDeadzone; norm_num

/-- For a normalised deadzone `d` in `[0, 0.9]` the divisor of `scale` is positive. -/
theorem one_sub_deadzone_pos (d : ℚ) (hd : d ≤ 9 / 10) : 0 < 1 - d := by linarith

/-- The scale of `parameterConversions` written with a single division. -/
theorem parameterConversions_scale (d : ℚ) :
    (parameterConversions d).scale = -1 / ((1 - d) * 32767) := by
  simp only [parameterConversions]
  rw [div_div]

/-- In exact arithmetic, for a normalised deadzone `d` in `[0, 0.9]`: the
conversions give `_unscaled_deadzone = 32767 * d` and
`scale = -1 / ((1 - d) * 32767)`, with a non-zero divisor and a strictly negative
scale; raw `32767` goes to `-1` and raw `-32767` to `1`; for `d = 1/20` the threshold
is `1638.35` and the scale `-1 / 31128.65`. -/
theorem parameterConversions_exact (d : ℚ) (h0 : 0 ≤ d) (h9 : d ≤ 9 / 10) :
    (parameterConversions d).unscaled_deadzone = 32767 * d ∧
      (1 - d) * 32767 ≠ 0 ∧
      (parameterConversions d).scale = -1 / ((1 - d) * 32767) ∧
      (parameterConversions d).scale < 0 ∧
      axisValue (parameterConversions d) 32767 = -1 ∧
      axisValue (parameterConversions d) (-32767) = 1 ∧
      (parameterConversions (1 / 20)).unscaled_deadzone = 163835 / 100 ∧
      (parameterConversions (1 / 20)).scale = -1 / (3112865 / 100) := by
  have hpos : 0 < 1 - d := one_sub_deadzone_pos d h9
  have hden : 0 < (1 - d) * 32767 := by positivity
  have hne : (1 - d) ≠ 0 := ne_of_gt hpos
  refine ⟨rfl, ne_of_gt hden, parameterConversions_scale d, ?_, ?_, ?_, ?_, ?_⟩
  · rw [parameterConversions_scale]
    exact div_neg_of_neg_of_pos (by norm_num) hden
  · have hgt : ((32767 : Int) : ℚ) > 32767 * d := by push_cast; nlinarith
    have := deadzoneValue_of_gt (32767 * d) 32767 hgt
    simp only [axisValue, parameterConversions, this]
    push_cast
    field_simp
    ring
  · have hlt : ((-32767 : Int) : ℚ) < -(32767 * d) := by push_cast; nlinarith
    have := deadzoneValue_of_lt_neg (32767 * d) (by positivity) (-32767) hlt
    simp only [axisValue, parameterConversions, this]
    push_cast
    field_simp
    ring
  · simp only [parameterConversions]; norm_num
  · simp only [parameterConversions]; norm_num

/-- For a normalised deadzone in `[0, 0.9]` and a raw value with
`-32767 ≤ v ≤ 32767`, the value stored in the axis slot lies in `[-1, 1]`. -/
theorem axisValue_range (d : ℚ) (_h0 : 0 ≤ d) (h9 : d ≤ 9 / 10) (v : Int)
    (hlo : -32767 ≤ v) (hhi : v ≤ 32767) :
    -1 ≤ axisValue (parameterConversions d) v ∧ axisValue (parameterConversions d) v ≤ 1 := by
  have hpos : 0 < 1 - d := one_sub_deadzone_pos d h9
  have hden : 0 < (1 - d) * 32767 := by positivity
  have hlo' : (-32767 : ℚ) ≤ (v : ℚ) := by exact_mod_cast hlo
  have hhi' : (v : ℚ) ≤ 32767 := by exact_mod_cast hhi
  have key : ∀ x : ℚ, -((1 - d) * 32767) ≤ x → x ≤ (1 - d) * 32767 →
      -1 ≤ x * (-1 / ((1 - d) * 32767)) ∧ x * (-1 / ((1 - d) * 32767)) ≤ 1 := by
    intro x hx1 hx2
    have e : x * (-1 / ((1 - d) * 32767)) = -x / ((1 - d) * 32767) := by ring
    rw [e]
    constructor
    · rw [le_div_iff₀ hden]; linarith
    · rw [div_le_iff₀ hden]; linarith
  have hsc := parameterConversions_scale d
  have ht : (parameterConversions d).unscaled_deadzone = 32767 * d := rfl
  simp only [axisValue, hsc, ht]
  apply key
  · unfold deadzoneValue
    simp only
    split_ifs <;> nlinarith
  · unfold deadzoneValue
    simp only
    split_ifs <;> nlinarith

/-- C3 fails on the code at raw value `-32768`: with the deadzone `0` the tracked
device's axis-motion event stores `32768 / 32767`, which is above `1`; with the
default deadzone `0.05` it stores `3112965 / 3112865`, also above `1`. -/
theorem axis_min_exceeds_one :
    (0 : ℚ) ≤ normalizeDeadzone 0 ∧ normalizeDeadzone 0 ≤ 9 / 10 ∧
      axisValue (parameterConversions (normalizeDeadzone 0)) (-32768) = 32768 / 32767 ∧
      axisValue (parameterConversions (normalizeDeadzone (1 / 20))) (-32768)
        = 3112965 / 3112865 ∧
      (applyEvent sdl2 (parameterConversions (normalizeDeadzone 0))
          { initialState sdl2 with gameController := some 1, gameControllerIndex := 0 }
          (.jaxis 0 0 (-32768))).toOption.map (fun s => s.joy_msg.axes)
        = some [32768 / 32767, 0, 0, 0, 0, 0] ∧
      ¬ ((32768 : ℚ) / 32767 ≤ 1) := by
  have hn0 : normalizeDeadzone 0 = 0 := by unfold normalizeDeadzone; norm_num
  have hn5 : normalizeDeadzone (1 / 20) = 1 / 20 := by unfold normalizeDeadzone; norm_num
  have hv : axisValue (parameterConversions 0) (-32768) = 32768 / 32767 := by
    simp only [axisValue, parameterConversions, deadzoneValue]; norm_num
  refine ⟨by rw [hn0], by rw [hn0]; norm_num, by rw [hn0]; exact hv, ?_, ?_, by norm_num⟩
  · rw [hn5]
    simp only [axisValue, parameterConversions, deadzoneValue]; norm_num
  · rw [hn0]
    simp only [applyEvent, initialState, initialJoyMsg, sdl2, setAxis, vecSet, hv, report,
      List.replicate, List.length, List.set, Except.map, Except.toOption, Option.map]
    norm_num

/-! ## Binary floating point: theorems -/

/-- Rounding to the nearest integer moves a number by at most one half. -/
theorem roundNearestEven_error (y : ℚ) : |(roundNearestEven y : ℚ) - y| ≤ 1 / 2 := by
  unfold roundNearestEven
  have h1 := Int.floor_le y
  have h2 := Int.lt_floor_add_one y
  simp only
  split_ifs with a b c
  · rw [abs_le]; constructor <;> linarith
  · rw [abs_le]; push_cast; constructor <;> linarith
  · rw [abs_le]; constructor <;> linarith
  · rw [abs_le]; push_cast; constructor <;> linarith

/-- The rounded integer is `n` as soon as `n` is strictly nearest, or `n` is even and
at distance one half. -/
theorem roundNearestEven_eq (y : ℚ) (n : Int)
    (h : |y - n| < 1 / 2 ∨ (|y - n| = 1 / 2 ∧ n % 2 = 0)) : roundNearestEven y = n := by
  unfold roundNearestEven
  have h1 := Int.floor_le y
  have h2 := Int.lt_floor_add_one y
  generalize ⌊y⌋ = f at h1 h2
  simp only
  rcases h with h | ⟨h, hev⟩
  · rw [abs_lt] at h
    obtain ⟨ha, hb⟩ := h
    split_ifs with a b c
    · have c1 : (f : ℚ) < n + 1 := by linarith
      have c2 : (n : ℚ) < f + 1 := by linarith
      have d1 : f < n + 1 := by exact_mod_cast c1
      have d2 : n < f + 1 := by exact_mod_cast c2
      omega
    · have c1 : (f : ℚ) < n := by linarith
      have c2 : (n : ℚ) < f + 2 := by linarith
      have d1 : f < n := by exact_mod_cast c1
      have d2 : n < f + 2 := by exact_mod_cast c2
      omega
    · exfalso
      have c1 : (f : ℚ) < n := by linarith
      have c2 : (n : ℚ) < f + 1 := by linarith
      have d1 : f < n := by exact_mod_cast c1
      have d2 : n < f + 1 := by exact_mod_cast c2
      omega
    · exfalso
      have c1 : (f : ℚ) < n := by linarith
      have c2 : (n : ℚ) < f + 1 := by linarith
      have d1 : f < n := by exact_mod_cast c1
      have d2 : n < f + 1 := by exact_mod_cast c2
      omega
  · rcases (abs_eq (by norm_num : (0 : ℚ) ≤ 1 / 2)).mp h with h | h
    · have c1 : (f : ℚ) < n + 1 := by linarith
      have c2 : (n : ℚ) < f + 1 := by linarith
      have d1 : f < n + 1 := by exact_mod_cast c1
      have d2 : n < f + 1 := by exact_mod_cast c2
      have e : f = n := by omega
      subst e
      have a : ¬ (y - (f : ℚ) < 1 / 2) := by linarith
      have b : ¬ ((1 : ℚ) / 2 < y - (f : ℚ)) := by linarith
      simp only [a, b, if_false, hev, if_true]
    · have c1 : (f : ℚ) < n := by linarith
      have c2 : (n : ℚ) < f + 2 := by linarith
      have d1 : f < n := by exact_mod_cast c1
      have d2 : n < f + 2 := by exact_mod_cast c2
      have e : n = f + 1 := by omega
      subst e
      have a : ¬ (y - (f : ℚ) < 1 / 2) := by push_cast at h; linarith
      have b : ¬ ((1 : ℚ) / 2 < y - (f : ℚ)) := by push_cast at h; linarith
      have c : ¬ (f % 2 = 0) := by omega
      simp only [a, b, c, if_false]

/-- The binade of a positive rational fixes its integer logarithm. -/
theorem int_log_two_eq (x : ℚ) (k : Int) (h1 : (2 : ℚ) ^ k ≤ x) (h2 : x < 2 ^ (k + 1)) :
    Int.log 2 x = k := by
  have hx : 0 < x := lt_of_lt_of_le (by positivity) h1
  have a : k ≤ Int.log 2 x := (Int.zpow_le_iff_le_log (by norm_num) hx).mp (by exact_mod_cast h1)
  have b : Int.log 2 x < k + 1 := (Int.lt_zpow_iff_log_lt (by norm_num) hx).mp (by exact_mod_cast h2)
  omega

/-- The rounding of `x` from its binade `2 ^ k ≤ |x| < 2 ^ (k + 1)` and the integer
nearest to `x / 2 ^ e`. -/
theorem roundBinary_eq (p : Nat) (emin : Int) (x : ℚ) (k e n : Int)
    (h1 : (2 : ℚ) ^ k ≤ |x|) (h2 : |x| < 2 ^ (k + 1))
    (he : e = max (k - ((p : Int) - 1)) emin)
    (hn : |x / 2 ^ e - n| < 1 / 2 ∨ (|x / 2 ^ e - n| = 1 / 2 ∧ n % 2 = 0)) :
    roundBinary p emin x = (n : ℚ) * 2 ^ e := by
  have hx : x ≠ 0 := by
    intro h0
    rw [h0, abs_zero] at h1
    exact absurd h1 (not_le.mpr (by positivity))
  unfold roundBinary
  simp only [hx, if_false]
  rw [int_log_two_eq |x| k h1 h2, ← he, roundNearestEven_eq _ n hn]

/-- Absolute rounding error: half a unit in the last place. -/
theorem roundBinary_abs_error (p : Nat) (emin : Int) (x : ℚ) :
    |roundBinary p emin x - x|
      ≤ 2 ^ (max (Int.log 2 |x| - ((p : Int) - 1)) emin) / 2 := by
  unfold roundBinary
  by_cases hx : x = 0
  · simp only [hx, if_true, sub_zero, abs_zero]
    positivity
  · simp only [hx, if_false]
    set e := max (Int.log 2 |x| - ((p : Int) - 1)) emin with he
    have hpos : (0 : ℚ) < 2 ^ e := by positivity
    have hy := roundNearestEven_error (x / 2 ^ e)
    have hsplit : (roundNearestEven (x / 2 ^ e) : ℚ) * 2 ^ e - x
        = ((roundNearestEven (x / 2 ^ e) : ℚ) - x / 2 ^ e) * 2 ^ e := by
      field_simp
    rw [hsplit, abs_mul, abs_of_pos hpos]
    calc |(roundNearestEven (x / 2 ^ e) : ℚ) - x / 2 ^ e| * 2 ^ e
        ≤ 1 / 2 * 2 ^ e := mul_le_mul_of_nonneg_right hy (le_of_lt hpos)
      _ = 2 ^ e / 2 := by ring

/-- Relative rounding error in the normal range. -/
theorem roundBinary_rel_error (p : Nat) (emin : Int) (x : ℚ)
    (hnorm : (2 : ℚ) ^ (emin + ((p : Int) - 1)) ≤ |x|) :
    |roundBinary p emin x - x| ≤ |x| / 2 ^ p := by
  have hxpos : 0 < |x| := lt_of_lt_of_le (by positivity) hnorm
  have hk : emin + ((p : Int) - 1) ≤ Int.log 2 |x| :=
    (Int.zpow_le_iff_le_log (by norm_num) hxpos).mp (by exact_mod_cast hnorm)
  have hmax : max (Int.log 2 |x| - ((p : Int) - 1)) emin = Int.log 2 |x| - ((p : Int) - 1) :=
    max_eq_left (by omega)
  have h := roundBinary_abs_error p emin x
  rw [hmax] at h
  have hlog : ((2 : ℕ) : ℚ) ^ Int.log 2 |x| ≤ |x| := Int.zpow_log_le_self (by norm_num) hxpos
  have hexp : (2 : ℚ) ^ (Int.log 2 |x| - ((p : Int) - 1)) / 2
      = 2 ^ Int.log 2 |x| / 2 ^ p := by
    rw [zpow_sub₀ (by norm_num), zpow_sub₀ (by norm_num), zpow_natCast, zpow_one]
    field_simp
    ring
  rw [hexp] at h
  calc |roundBinary p emin x - x| ≤ 2 ^ Int.log 2 |x| / 2 ^ p := h
    _ ≤ |x| / 2 ^ p := by
      apply div_le_div_of_nonneg_right _ (by positivity)
      exact_mod_cast hlog

/-- Absolute rounding error below a power of two. -/
theorem roundBinary_abs_error_lt (p : Nat) (emin m : Int) (x : ℚ)
    (hx : |x| < 2 ^ m) (hm : emin ≤ m - (p : Int)) :
    |roundBinary p emin x - x| ≤ 2 ^ (m - (p : Int)) / 2 := by
  by_cases h0 : x = 0
  · simp only [roundBinary, h0, if_true, sub_zero, abs_zero]
    positivity
  · have hxpos : 0 < |x| := abs_pos.mpr h0
    have hk : Int.log 2 |x| < m :=
      (Int.lt_zpow_iff_log_lt (by norm_num) hxpos).mp (by exact_mod_cast hx)
    have h := roundBinary_abs_error p emin x
    have hle : max (Int.log 2 |x| - ((p : Int) - 1)) emin ≤ m - (p : Int) :=
      max_le (by omega) hm
    calc |roundBinary p emin x - x|
        ≤ 2 ^ (max (Int.log 2 |x| - ((p : Int) - 1)) emin) / 2 := h
      _ ≤ 2 ^ (m - (p : Int)) / 2 := by
        apply div_le_div_of_nonneg_right _ (by norm_num)
        exact zpow_le_zpow_right₀ (by norm_num) hle

/-- A product of two factors near 1 is near 1. -/
theorem abs_mul_sub_one_le (a b c1 c2 : ℚ) (ha : |a - 1| ≤ c1) (hb : |b - 1| ≤ c2) :
    |a * b - 1| ≤ c1 + c2 + c1 * c2 := by
  have e : a * b - 1 = (a - 1) + (b - 1) + (a - 1) * (b - 1) := by ring
  have hc1 : 0 ≤ c1 := le_trans (abs_nonneg _) ha
  calc |a * b - 1| = |(a - 1) + (b - 1) + (a - 1) * (b - 1)| := by rw [e]
    _ ≤ |(a - 1) + (b - 1)| + |(a - 1) * (b - 1)| := abs_add _ _
    _ ≤ (|a - 1| + |b - 1|) + |a - 1| * |b - 1| := by
      rw [abs_mul]; exact add_le_add_right (abs_add _ _) _
    _ ≤ c1 + c2 + c1 * c2 :=
      add_le_add (add_le_add ha hb) (mul_le_mul ha hb (abs_nonneg _) hc1)

/-- Closeness with a larger bound. -/
theorem Near.mono {c c1 x y : ℚ} (h : Near c x y) (hc : c ≤ c1) : Near c1 x y := by
  obtain ⟨R, hR, e⟩ := h
  exact ⟨R, le_trans hR hc, e⟩

/-- Closeness composes. -/
theorem Near.chain {c1 c2 x y z : ℚ} (h1 : Near c1 y z) (h2 : Near c2 x y) :
    Near (c1 + c2 + c1 * c2) x z := by
  obtain ⟨R1, hR1, e1⟩ := h1
  obtain ⟨R2, hR2, e2⟩ := h2
  exact ⟨R1 * R2, abs_mul_sub_one_le R1 R2 c1 c2 hR1 hR2, by rw [e2, e1]; ring⟩

/-- Closeness of products. -/
theorem Near.mul {c1 c2 x1 y1 x2 y2 : ℚ} (h1 : Near c1 x1 y1) (h2 : Near c2 x2 y2) :
    Near (c1 + c2 + c1 * c2) (x1 * x2) (y1 * y2) := by
  obtain ⟨R1, hR1, e1⟩ := h1
  obtain ⟨R2, hR2, e2⟩ := h2
  exact ⟨R1 * R2, abs_mul_sub_one_le R1 R2 c1 c2 hR1 hR2, by rw [e2, e1]; ring⟩

/-- Closeness of negations. -/
theorem Near.neg {c x y : ℚ} (h : Near c x y) : Near c (-x) (-y) := by
  obtain ⟨R, hR, e⟩ := h
  exact ⟨R, hR, by rw [e]; ring⟩

/-- Closeness of quotients by the same constant. -/
theorem Near.div_const {c x y : ℚ} (h : Near c x y) (k : ℚ) : Near c (x / k) (y / k) := by
  obtain ⟨R, hR, e⟩ := h
  exact ⟨R, hR, by rw [e]; ring⟩

/-- Closeness of inverses. -/
theorem Near.inv {c x y : ℚ} (h : Near c x y) (hc : c < 1) :
    Near (c / (1 - c)) x⁻¹ y⁻¹ := by
  obtain ⟨R, hR, e⟩ := h
  obtain ⟨hlo, hhi⟩ := abs_le.mp hR
  have hRpos : 0 < R := by linarith
  have h1c : 0 < 1 - c := by linarith
  refine ⟨R⁻¹, ?_, by rw [e, mul_inv]⟩
  have e1 : R⁻¹ - 1 = (1 - R) / R := by field_simp
  rw [e1, abs_div, abs_of_pos hRpos, div_le_div_iff₀ hRpos h1c]
  have h2 : |1 - R| ≤ c := by rw [abs_sub_comm]; exact hR
  have hc0 : 0 ≤ c := le_trans (abs_nonneg _) hR
  calc |1 - R| * (1 - c) ≤ c * (1 - c) := mul_le_mul_of_nonneg_right h2 (le_of_lt h1c)
    _ ≤ c * R := mul_le_mul_of_nonneg_left (by linarith) hc0

/-- An absolute error against a value bounded away from zero is a relative one. -/
theorem Near.of_abs_sub {x y η m : ℚ} (hm0 : 0 < m) (hm : m ≤ |y|) (h : |x - y| ≤ η) :
    Near (η / m) x y := by
  have hy : y ≠ 0 := abs_pos.mp (lt_of_lt_of_le hm0 hm)
  have hypos : 0 < |y| := abs_pos.mpr hy
  refine ⟨x / y, ?_, by field_simp⟩
  have e1 : x / y - 1 = (x - y) / y := by field_simp
  rw [e1, abs_div, div_le_div_iff₀ hypos hm0]
  have hη : 0 ≤ η := le_trans (abs_nonneg _) h
  calc |x - y| * m ≤ η * m := mul_le_mul_of_nonneg_right h (le_of_lt hm0)
    _ ≤ η * |y| := mul_le_mul_of_nonneg_left hm hη

/-- The absolute error of a relative closeness. -/
theorem Near.abs_sub {c x y : ℚ} (h : Near c x y) : |x - y| ≤ |y| * c := by
  obtain ⟨R, hR, e⟩ := h
  have e1 : x - y = y * (R - 1) := by rw [e]; ring
  rw [e1, abs_mul]
  exact mul_le_mul_of_nonneg_left hR (abs_nonneg _)

/-- A value close to `y` is at least half of `y` in magnitude. -/
theorem Near.abs_lower {c x y : ℚ} (h : Near c x y) (hc : c ≤ 1 / 2) : |y| / 2 ≤ |x| := by
  obtain ⟨R, hR, e⟩ := h
  obtain ⟨hlo, hhi⟩ := abs_le.mp hR
  have hR2 : 1 / 2 ≤ R := by linarith
  rw [e, abs_mul, abs_of_pos (by linarith : 0 < R)]
  calc |y| / 2 = |y| * (1 / 2) := by ring
    _ ≤ |y| * R := mul_le_mul_of_nonneg_left hR2 (abs_nonneg _)

/-- Rounding in the normal range adds a relative error of `2 ^ (-p)`. -/
theorem Near.round (p : Nat) (emin : Int) {c x y : ℚ} (h : Near c x y) (hc : c ≤ 1 / 2)
    (hy : 2 * (2 : ℚ) ^ (emin + ((p : Int) - 1)) ≤ |y|) :
    Near (c + 1 / 2 ^ p + c * (1 / 2 ^ p)) (roundBinary p emin x) y := by
  have hlow := h.abs_lower hc
  have hnorm : (2 : ℚ) ^ (emin + ((p : Int) - 1)) ≤ |x| := by linarith
  have hxpos : 0 < |x| := lt_of_lt_of_le (by positivity) hnorm
  have hrel := roundBinary_rel_error p emin x hnorm
  have hn : Near (|x| / 2 ^ p / |x|) (roundBinary p emin x) x :=
    Near.of_abs_sub hxpos (le_refl _) hrel
  have e : |x| / 2 ^ p / |x| = 1 / 2 ^ p := by field_simp; ring
  rw [e] at hn
  exact h.chain hn

/-- Every number is close to itself. -/
theorem Near.self (x : ℚ) : Near 0 x x := ⟨1, by simp, by ring⟩

/-- A `double` operation on a value well inside the normal range. -/
theorem Near.round64 {c x y : ℚ} (h : Near c x y) (hc : c ≤ 1 / 2) (hy : 1 / 2 ^ 20 ≤ |y|)
    (c1 : ℚ) (hc1 : c + 1 / 2 ^ 53 + c * (1 / 2 ^ 53) ≤ c1) : Near c1 (fl64 x) y := by
  have h2 : 2 * (2 : ℚ) ^ ((-1074 : Int) + (((53 : ℕ) : Int) - 1)) ≤ |y| := by
    refine le_trans ?_ hy
    norm_num
  exact (h.round 53 (-1074) hc h2).mono hc1

/-- A store into a `float` of a value well inside the normal range. -/
theorem Near.round32 {c x y : ℚ} (h : Near c x y) (hc : c ≤ 1 / 2) (hy : 1 / 2 ^ 20 ≤ |y|)
    (c1 : ℚ) (hc1 : c + 1 / 2 ^ 24 + c * (1 / 2 ^ 24) ≤ c1) : Near c1 (fl32 x) y := by
  have h2 : 2 * (2 : ℚ) ^ ((-149 : Int) + (((24 : ℕ) : Int) - 1)) ≤ |y| := by
    refine le_trans ?_ hy
    norm_num
  exact (h.round 24 (-149) hc h2).mono hc1

/-- The rounding chain of lines 193/197 and 204: the corrected value is rounded to
`double` and to `float`, the product with `scale` to `double` and to `float32`. -/
theorem near_axis_product {s x ys y σ : ℚ} (hs : Near (1 / 2 ^ 50) s ys)
    (hx : Near (1 / 2 ^ 50) x y) (hy : 1 / 2 ^ 20 ≤ |y|) (hσ : y * ys = σ) (hσ1 : |σ| = 1) :
    |fl32 (fl64 (fl32 (fl64 x) * s)) - σ| ≤ 1 / 2 ^ 22 := by
  have hv1 : Near (1 / 2 ^ 49) (fl64 x) y := hx.round64 (by norm_num) hy _ (by norm_num)
  have hv : Near (1 / 2 ^ 24 + 1 / 2 ^ 48) (fl32 (fl64 x)) y :=
    hv1.round32 (by norm_num) hy _ (by norm_num)
  have hm : Near (1 / 2 ^ 24 + 1 / 2 ^ 47) (fl32 (fl64 x) * s) σ := by
    have := (hv.mul hs).mono (by norm_num : _ ≤ (1 : ℚ) / 2 ^ 24 + 1 / 2 ^ 47)
    rwa [hσ] at this
  have h1 : (1 : ℚ) / 2 ^ 20 ≤ |σ| := by rw [hσ1]; norm_num
  have hp : Near (1 / 2 ^ 24 + 1 / 2 ^ 46) (fl64 (fl32 (fl64 x) * s)) σ :=
    hm.round64 (by norm_num) h1 _ (by norm_num)
  have ho : Near (1 / 2 ^ 22) (fl32 (fl64 (fl32 (fl64 x) * s))) σ :=
    hp.round32 (by norm_num) h1 _ (by norm_num)
  have := ho.abs_sub
  rwa [hσ1, one_mul] at this

/-- The raw value 32767 is a `float`. -/
theorem fl32_32767 : fl32 ((32767 : Int) : ℚ) = 32767 := by
  have := roundBinary_eq 24 (-149) ((32767 : Int) : ℚ) 14 (-9) 16776704
    (by rw [le_abs]; norm_num) (by rw [abs_lt]; norm_num) (by norm_num)
    (Or.inl (by rw [abs_lt]; norm_num))
  rw [fl32, this]; norm_num

/-- The raw value -32767 is a `float`. -/
theorem fl32_neg_32767 : fl32 ((-32767 : Int) : ℚ) = -32767 := by
  have := roundBinary_eq 24 (-149) ((-32767 : Int) : ℚ) 14 (-9) (-16776704)
    (by rw [le_abs]; norm_num) (by rw [abs_lt]; norm_num) (by norm_num)
    (Or.inl (by rw [abs_lt]; norm_num))
  rw [fl32, this]; norm_num

/-- The rounded calibration for every deadzone in `[0, 0.9]`: threshold within
`2 ^ (-39)` of `32767 * d`, scale negative and within a relative `2 ^ (-50)` of
`-1 / ((1 - d) * 32767)`, raw `32767` and `-32767` stored within `2 ^ (-22)` of `-1`
and `1`. -/
theorem calibration_chain (d : ℚ) (h0 : 0 ≤ d) (h9 : d ≤ 9 / 10) :
    |(parameterConversionsIEEE d).unscaled_deadzone - 32767 * d| ≤ 1 / 2 ^ 39 ∧
      0 < fl64 (1 - d) ∧
      (parameterConversionsIEEE d).scale < 0 ∧
      |(parameterConversionsIEEE d).scale - -1 / ((1 - d) * 32767)|
        ≤ 1 / ((1 - d) * 32767) * (1 / 2 ^ 50) ∧
      |axisValueIEEE (parameterConversionsIEEE d) 32767 - -1| ≤ 1 / 2 ^ 22 ∧
      |axisValueIEEE (parameterConversionsIEEE d) (-32767) - 1| ≤ 1 / 2 ^ 22 := by
  have hA1 : (1 : ℚ) / 10 ≤ 1 - d := by linarith
  have hA2 : 1 - d ≤ 1 := by linarith
  have hApos : 0 < 1 - d := by linarith
  have hAinv : 1 ≤ (1 - d)⁻¹ := (one_le_inv₀ hApos).mpr hA2
  -- scale
  have ha : Near (1 / 2 ^ 53) (fl64 (1 - d)) (1 - d) :=
    (Near.self (1 - d)).round64 (by norm_num)
      (by rw [abs_of_pos hApos]; exact le_trans (by norm_num) hA1) _ (by norm_num)
  have hx2 : Near (1 / 2 ^ 52) (-1 / fl64 (1 - d)) (-(1 - d)⁻¹) := by
    have e : (-1 : ℚ) / fl64 (1 - d) = -(fl64 (1 - d))⁻¹ := by rw [neg_div, one_div]
    rw [e]
    exact ((ha.inv (by norm_num)).mono (by norm_num : _ ≤ (1 : ℚ) / 2 ^ 52)).neg
  have hyb : (1 : ℚ) / 2 ^ 20 ≤ |(-(1 - d)⁻¹)| := by
    rw [abs_neg, abs_of_pos (by positivity)]
    exact le_trans (by norm_num) hAinv
  have hb : Near (1 / 2 ^ 51) (fl64 (-1 / fl64 (1 - d))) (-(1 - d)⁻¹) :=
    hx2.round64 (by norm_num) hyb _ (by norm_num)
  have hys : (1 : ℚ) / 2 ^ 20 ≤ |(-(1 - d)⁻¹ / 32767)| := by
    rw [neg_div, abs_neg, abs_of_pos (by positivity), le_div_iff₀ (by norm_num)]
    exact le_trans (by norm_num) hAinv
  have hs : Near (1 / 2 ^ 50) (parameterConversionsIEEE d).scale (-(1 - d)⁻¹ / 32767) :=
    (hb.div_const 32767).round64 (by norm_num) hys _ (by norm_num)
  have hyneg : -(1 - d)⁻¹ / 32767 < 0 := by
    rw [neg_div]; exact neg_neg_of_pos (by positivity)
  have hyeq : -(1 - d)⁻¹ / 32767 = -1 / ((1 - d) * 32767) := by
    field_simp
  have hsneg : (parameterConversionsIEEE d).scale < 0 := by
    obtain ⟨R, hR, e⟩ := hs
    obtain ⟨hlo, -⟩ := abs_le.mp hR
    rw [e]
    exact mul_neg_of_neg_of_pos hyneg (by linarith [show (1 : ℚ) / 2 ^ 50 < 1 by norm_num])
  have hsabs : |(parameterConversionsIEEE d).scale - -1 / ((1 - d) * 32767)|
      ≤ 1 / ((1 - d) * 32767) * (1 / 2 ^ 50) := by
    have := hs.abs_sub
    rw [hyeq] at this
    have e : |(-1 : ℚ) / ((1 - d) * 32767)| = 1 / ((1 - d) * 32767) := by
      rw [neg_div, abs_neg, abs_of_pos (by positivity)]
    rwa [e] at this
  -- threshold
  have hT : |32767 * d| < (2 : ℚ) ^ (15 : Int) := by
    rw [abs_of_nonneg (by positivity)]
    norm_num
    linarith
  have ht : |(parameterConversionsIEEE d).unscaled_deadzone - 32767 * d| ≤ 1 / 2 ^ 39 := by
    have := roundBinary_abs_error_lt 53 (-1074) 15 (32767 * d) hT (by norm_num)
    norm_num at this
    simpa [parameterConversionsIEEE, fl64] using this
  obtain ⟨htlo, hthi⟩ := abs_le.mp ht
  set t := (parameterConversionsIEEE d).unscaled_deadzone with htdef
  set sc := (parameterConversionsIEEE d).scale with hscdef
  have hE : (1 : ℚ) / 2 ^ 20 ≤ |32767 * (1 - d)| := by
    rw [abs_of_pos (by positivity)]; nlinarith
  have hE3 : (3276 : ℚ) ≤ |32767 * (1 - d)| := by
    rw [abs_of_pos (by positivity)]; nlinarith
  have hx5 : Near (1 / 2 ^ 50) (32767 - t) (32767 * (1 - d)) := by
    have h1 : |(32767 - t) - 32767 * (1 - d)| ≤ 1 / 2 ^ 39 := by
      rw [abs_le]; constructor <;> linarith
    exact (Near.of_abs_sub (by norm_num) hE3 h1).mono (by norm_num)
  have hdiv : 0 < fl64 (1 - d) := by
    obtain ⟨R, hR, e⟩ := ha
    obtain ⟨hlo, -⟩ := abs_le.mp hR
    rw [e]
    exact mul_pos hApos (by linarith [show (1 : ℚ) / 2 ^ 53 < 1 by norm_num])
  refine ⟨ht, hdiv, hsneg, hsabs, ?_, ?_⟩
  · have hgt : (32767 : ℚ) > t := by linarith
    have hval : deadzoneValueIEEE t 32767 = fl32 (fl64 (32767 - t)) := by
      simp only [deadzoneValueIEEE, fl32_32767, hgt, if_true]
    simp only [axisValueIEEE, hval]
    exact near_axis_product hs hx5 hE (by field_simp; ring) (by norm_num)
  · have hngt : ¬ ((-32767 : ℚ) > t) := by linarith
    have hlt : (-32767 : ℚ) < -t := by linarith
    have hval : deadzoneValueIEEE t (-32767) = fl32 (fl64 (-32767 + t)) := by
      simp only [deadzoneValueIEEE, fl32_neg_32767, hngt, if_false, hlt, if_true]
    have hx5n : Near (1 / 2 ^ 50) (-32767 + t) (-(32767 * (1 - d))) := by
      have := hx5.neg
      rwa [neg_sub, sub_eq_neg_add] at this
    simp only [axisValueIEEE, hval]
    exact near_axis_product hs hx5n (by rwa [abs_neg]) (by field_simp; ring) (by norm_num)

/-! ### Evaluation of the rounded calibration at given deadzones -/

/-- The binary64 number denoted by `0.4`. -/
theorem double_0_4 : fl64 (2 / 5) = (3602879701896397 / 9007199254740992) := by
  have h := roundBinary_eq 53 (-1074) (2 / 5) (-2) (-54) 7205759403792794
    (by rw [le_abs]; norm_num) (by rw [abs_lt]; norm_num) (by norm_num)
    (Or.inl (by rw [abs_lt]; norm_num))
  rw [fl64, h]; norm_num

/-- The binary64 number denoted by `0.05`. -/
theorem double_0_05 : fl64 (1 / 20) = (3602879701896397 / 72057594037927936) := by
  have h := roundBinary_eq 53 (-1074) (1 / 20) (-5) (-57) 7205759403792794
    (by rw [le_abs]; norm_num) (by rw [abs_lt]; norm_num) (by norm_num)
    (Or.inl (by rw [abs_lt]; norm_num))
  rw [fl64, h]; norm_num

/-- The binary64 number denoted by `1638.35`. -/
theorem double_1638_35 : fl64 (163835 / 100) = (3602769750733619 / 2199023255552) := by
  have h := roundBinary_eq 53 (-1074) (163835 / 100) (10) (-42) 7205539501467238
    (by rw [le_abs]; norm_num) (by rw [abs_lt]; norm_num) (by norm_num)
    (Or.inl (by rw [abs_lt]; norm_num))
  rw [fl64, h]; norm_num

/-- Rounded `1. - _deadzone` at the deadzone 0.4. -/
theorem dz04_one_sub : fl64 (1 - (3602879701896397 / 9007199254740992)) = (5404319552844595 / 9007199254740992) := by
  have h := roundBinary_eq 53 (-1074) (1 - (3602879701896397 / 9007199254740992)) (-1) (-53) 5404319552844595
    (by rw [le_abs]; norm_num) (by rw [abs_lt]; norm_num) (by norm_num)
    (Or.inl (by rw [abs_lt]; norm_num))
  rw [fl64, h]; norm_num

/-- Rounded `-1. / (1. - _deadzone)` at the deadzone 0.4. -/
theorem dz04_neg_inv : fl64 (-1 / (5404319552844595 / 9007199254740992)) = (-7505999378950827 / 4503599627370496) := by
  have h := roundBinary_eq 53 (-1074) (-1 / (5404319552844595 / 9007199254740992)) (0) (-52) (-7505999378950827)
    (by rw [le_abs]; norm_num) (by rw [abs_lt]; norm_num) (by norm_num)
    (Or.inl (by rw [abs_lt]; norm_num))
  rw [fl64, h]; norm_num

/-- Rounded `scale` at the deadzone 0.4. -/
theorem dz04_scale : fl64 ((-7505999378950827 / 4503599627370496) / 32767) = (-58642409772375 / 1152921504606846976) := by
  have h := roundBinary_eq 53 (-1074) ((-7505999378950827 / 4503599627370496) / 32767) (-15) (-67) (-7506228450864000)
    (by rw [le_abs]; norm_num) (by rw [abs_lt]; norm_num) (by norm_num)
    (Or.inl (by rw [abs_lt]; norm_num))
  rw [fl64, h]; norm_num

/-- Rounded `_unscaled_deadzone` at the deadzone 0.4. -/
theorem dz04_threshold : fl64 (32767 * (3602879701896397 / 9007199254740992)) = (7205539501467239 / 549755813888) := by
  have h := roundBinary_eq 53 (-1074) (32767 * (3602879701896397 / 9007199254740992)) (13) (-39) 7205539501467239
    (by rw [le_abs]; norm_num) (by rw [abs_lt]; norm_num) (by norm_num)
    (Or.inl (by rw [abs_lt]; norm_num))
  rw [fl64, h]; norm_num

/-- Rounded binary64 difference for raw 32767 at the deadzone 0.4. -/
theorem dz04_max_diff : fl64 (32767 - (7205539501467239 / 549755813888)) = (1351038656525107 / 68719476736) := by
  have h := roundBinary_eq 53 (-1074) (32767 - (7205539501467239 / 549755813888)) (14) (-38) 5404154626100428
    (by rw [le_abs]; norm_num) (by rw [abs_lt]; norm_num) (by norm_num)
    (Or.inr ⟨by rw [abs_eq (by norm_num)]; norm_num, by norm_num⟩)
  rw [fl64, h]; norm_num

/-- The `float` corrected value for raw 32767 at the deadzone 0.4. -/
theorem dz04_max_value : fl32 ((1351038656525107 / 68719476736)) = (5033011 / 256) := by
  have h := roundBinary_eq 24 (-149) ((1351038656525107 / 68719476736)) (14) (-9) 10066022
    (by rw [le_abs]; norm_num) (by rw [abs_lt]; norm_num) (by norm_num)
    (Or.inl (by rw [abs_lt]; norm_num))
  rw [fl32, h]; norm_num

/-- Rounded binary64 product `value * scale` for raw 32767 at the deadzone 0.4. -/
theorem dz04_max_product : fl64 ((5033011 / 256) * (-58642409772375 / 1152921504606846976)) = (-274877896021 / 274877906944) := by
  have h := roundBinary_eq 53 (-1074) ((5033011 / 256) * (-58642409772375 / 1152921504606846976)) (-1) (-53) (-9007198896816128)
    (by rw [le_abs]; norm_num) (by rw [abs_lt]; norm_num) (by norm_num)
    (Or.inl (by rw [abs_lt]; norm_num))
  rw [fl64, h]; norm_num

/-- The `float32` axis slot for raw 32767 at the deadzone 0.4. -/
theorem dz04_max_axis : fl32 ((-274877896021 / 274877906944)) = (-16777215 / 16777216) := by
  have h := roundBinary_eq 24 (-149) ((-274877896021 / 274877906944)) (-1) (-24) (-16777215)
    (by rw [le_abs]; norm_num) (by rw [abs_lt]; norm_num) (by norm_num)
    (Or.inl (by rw [abs_lt]; norm_num))
  rw [fl32, h]; norm_num

/-- Rounded binary64 difference for raw -32767 at the deadzone 0.4. -/
theorem dz04_min_diff : fl64 ((-32767) + (7205539501467239 / 549755813888)) = (-1351038656525107 / 68719476736) := by
  have h := roundBinary_eq 53 (-1074) ((-32767) + (7205539501467239 / 549755813888)) (14) (-38) (-5404154626100428)
    (by rw [le_abs]; norm_num) (by rw [abs_lt]; norm_num) (by norm_num)
    (Or.inr ⟨by rw [abs_eq (by norm_num)]; norm_num, by norm_num⟩)
  rw [fl64, h]; norm_num

/-- The `float` corrected value for raw -32767 at the deadzone 0.4. -/
theorem dz04_min_value : fl32 ((-1351038656525107 / 68719476736)) = (-5033011 / 256) := by
  have h := roundBinary_eq 24 (-149) ((-1351038656525107 / 68719476736)) (14) (-9) (-10066022)
    (by rw [le_abs]; norm_num) (by rw [abs_lt]; norm_num) (by norm_num)
    (Or.inl (by rw [abs_lt]; norm_num))
  rw [fl32, h]; norm_num

/-- Rounded binary64 product `value * scale` for raw -32767 at the deadzone 0.4. -/
theorem dz04_min_product : fl64 ((-5033011 / 256) * (-58642409772375 / 1152921504606846976)) = (274877896021 / 274877906944) := by
  have h := roundBinary_eq 53 (-1074) ((-5033011 / 256) * (-58642409772375 / 1152921504606846976)) (-1) (-53) 9007198896816128
    (by rw [le_abs]; norm_num) (by rw [abs_lt]; norm_num) (by norm_num)
    (Or.inl (by rw [abs_lt]; norm_num))
  rw [fl64, h]; norm_num

/-- The `float32` axis slot for raw -32767 at the deadzone 0.4. -/
theorem dz04_min_axis : fl32 ((274877896021 / 274877906944)) = (16777215 / 16777216) := by
  have h := roundBinary_eq 24 (-149) ((274877896021 / 274877906944)) (-1) (-24) 16777215
    (by rw [le_abs]; norm_num) (by rw [abs_lt]; norm_num) (by norm_num)
    (Or.inl (by rw [abs_lt]; norm_num))
  rw [fl32, h]; norm_num

/-- Rounded `1. - _deadzone` at the deadzone 0.05. -/
theorem dz005_one_sub : fl64 (1 - (3602879701896397 / 72057594037927936)) = (4278419646001971 / 4503599627370496) := by
  have h := roundBinary_eq 53 (-1074) (1 - (3602879701896397 / 72057594037927936)) (-1) (-53) 8556839292003942
    (by rw [le_abs]; norm_num) (by rw [abs_lt]; norm_num) (by norm_num)
    (Or.inl (by rw [abs_lt]; norm_num))
  rw [fl64, h]; norm_num

/-- Rounded `-1. / (1. - _deadzone)` at the deadzone 0.05. -/
theorem dz005_neg_inv : fl64 (-1 / (4278419646001971 / 4503599627370496)) = (-4740631186705785 / 4503599627370496) := by
  have h := roundBinary_eq 53 (-1074) (-1 / (4278419646001971 / 4503599627370496)) (0) (-52) (-4740631186705785)
    (by rw [le_abs]; norm_num) (by rw [abs_lt]; norm_num) (by norm_num)
    (Or.inl (by rw [abs_lt]; norm_num))
  rw [fl64, h]; norm_num

/-- Rounded `scale` at the deadzone 0.05. -/
theorem dz005_scale : fl64 ((-4740631186705785 / 4503599627370496) / 32767) = (-4740775863703579 / 147573952589676412928) := by
  have h := roundBinary_eq 53 (-1074) ((-4740631186705785 / 4503599627370496) / 32767) (-15) (-67) (-4740775863703579)
    (by rw [le_abs]; norm_num) (by rw [abs_lt]; norm_num) (by norm_num)
    (Or.inl (by rw [abs_lt]; norm_num))
  rw [fl64, h]; norm_num

/-- Rounded `_unscaled_deadzone` at the deadzone 0.05. -/
theorem dz005_threshold : fl64 (32767 * (3602879701896397 / 72057594037927936)) = (7205539501467239 / 4398046511104) := by
  have h := roundBinary_eq 53 (-1074) (32767 * (3602879701896397 / 72057594037927936)) (10) (-42) 7205539501467239
    (by rw [le_abs]; norm_num) (by rw [abs_lt]; norm_num) (by norm_num)
    (Or.inl (by rw [abs_lt]; norm_num))
  rw [fl64, h]; norm_num

/-- Rounded `1. - _deadzone` at the deadzone 0. -/
theorem dz0_one_sub : fl64 (1 - 0) = 1 := by
  have h := roundBinary_eq 53 (-1074) (1 - 0) (0) (-52) 4503599627370496
    (by rw [le_abs]; norm_num) (by rw [abs_lt]; norm_num) (by norm_num)
    (Or.inl (by rw [abs_lt]; norm_num))
  rw [fl64, h]; norm_num

/-- Rounded `-1. / (1. - _deadzone)` at the deadzone 0. -/
theorem dz0_neg_inv : fl64 (-1 / 1) = (-1) := by
  have h := roundBinary_eq 53 (-1074) (-1 / 1) (0) (-52) (-4503599627370496)
    (by rw [le_abs]; norm_num) (by rw [abs_lt]; norm_num) (by norm_num)
    (Or.inl (by rw [abs_lt]; norm_num))
  rw [fl64, h]; norm_num

/-- Rounded `scale` at the deadzone 0. -/
theorem dz0_scale : fl64 ((-1) / 32767) = (-35185445863425 / 1152921504606846976) := by
  have h := roundBinary_eq 53 (-1074) ((-1) / 32767) (-15) (-67) (-4503737070518400)
    (by rw [le_abs]; norm_num) (by rw [abs_lt]; norm_num) (by norm_num)
    (Or.inl (by rw [abs_lt]; norm_num))
  rw [fl64, h]; norm_num

/-- Rounded binary64 difference for raw -32768 at the deadzone 0. -/
theorem dz0_low_diff : fl64 ((-32768) + 0) = (-32768) := by
  have h := roundBinary_eq 53 (-1074) ((-32768) + 0) (15) (-37) (-4503599627370496)
    (by rw [le_abs]; norm_num) (by rw [abs_lt]; norm_num) (by norm_num)
    (Or.inl (by rw [abs_lt]; norm_num))
  rw [fl64, h]; norm_num

/-- The `float` corrected value for raw -32768 at the deadzone 0. -/
theorem dz0_low_value : fl32 ((-32768)) = (-32768) := by
  have h := roundBinary_eq 24 (-149) ((-32768)) (15) (-8) (-8388608)
    (by rw [le_abs]; norm_num) (by rw [abs_lt]; norm_num) (by norm_num)
    (Or.inl (by rw [abs_lt]; norm_num))
  rw [fl32, h]; norm_num

/-- Rounded binary64 product `value * scale` for raw -32768 at the deadzone 0. -/
theorem dz0_low_product : fl64 ((-32768) * (-35185445863425 / 1152921504606846976)) = (35185445863425 / 35184372088832) := by
  have h := roundBinary_eq 53 (-1074) ((-32768) * (-35185445863425 / 1152921504606846976)) (0) (-52) 4503737070518400
    (by rw [le_abs]; norm_num) (by rw [abs_lt]; norm_num) (by norm_num)
    (Or.inl (by rw [abs_lt]; norm_num))
  rw [fl64, h]; norm_num

/-- The `float32` axis slot for raw -32768 at the deadzone 0. -/
theorem dz0_low_axis : fl32 ((35185445863425 / 35184372088832)) = (32769 / 32768) := by
  have h := roundBinary_eq 24 (-149) ((35185445863425 / 35184372088832)) (0) (-23) 8388864
    (by rw [le_abs]; norm_num) (by rw [abs_lt]; norm_num) (by norm_num)
    (Or.inl (by rw [abs_lt]; norm_num))
  rw [fl32, h]; norm_num

/-- The raw value -32768 is a `float`. -/
theorem fl32_neg_32768 : fl32 ((-32768 : Int) : ℚ) = -32768 := by
  have := roundBinary_eq 24 (-149) ((-32768 : Int) : ℚ) 15 (-8) (-8388608)
    (by rw [le_abs]; norm_num) (by rw [abs_lt]; norm_num) (by norm_num)
    (Or.inl (by rw [abs_lt]; norm_num))
  rw [fl32, this]; norm_num

/-- The rounded calibration at the `double` `0.4`. -/
theorem parameterConversionsIEEE_0_4 :
    parameterConversionsIEEE (3602879701896397 / 9007199254740992)
      = ⟨(-58642409772375 / 1152921504606846976), (7205539501467239 / 549755813888)⟩ := by
  simp only [parameterConversionsIEEE]
  rw [dz04_one_sub, dz04_neg_inv, dz04_scale, dz04_threshold]

/-- The rounded calibration at the `double` `0.05`. -/
theorem parameterConversionsIEEE_0_05 :
    parameterConversionsIEEE (3602879701896397 / 72057594037927936)
      = ⟨(-4740775863703579 / 147573952589676412928),
          (7205539501467239 / 4398046511104)⟩ := by
  simp only [parameterConversionsIEEE]
  rw [dz005_one_sub, dz005_neg_inv, dz005_scale, dz005_threshold]

/-- The rounded calibration at the deadzone `0`. -/
theorem parameterConversionsIEEE_0 :
    parameterConversionsIEEE 0 = ⟨(-35185445863425 / 1152921504606846976), 0⟩ := by
  have h0 : fl64 (32767 * 0) = 0 := by simp [fl64, roundBinary]
  simp only [parameterConversionsIEEE]
  rw [dz0_one_sub, dz0_neg_inv, dz0_scale, h0]

/-- The `float32` slot for raw 32767 at the `double` `0.4`. -/
theorem axisValueIEEE_0_4_max :
    axisValueIEEE (parameterConversionsIEEE (3602879701896397 / 9007199254740992)) 32767
      = -16777215 / 16777216 := by
  have hgt : (32767 : ℚ) > (7205539501467239 / 549755813888) := by norm_num
  rw [parameterConversionsIEEE_0_4]
  simp only [axisValueIEEE, deadzoneValueIEEE, fl32_32767, hgt, if_true]
  rw [dz04_max_diff, dz04_max_value, dz04_max_product, dz04_max_axis]

/-- The `float32` slot for raw -32767 at the `double` `0.4`. -/
theorem axisValueIEEE_0_4_min :
    axisValueIEEE (parameterConversionsIEEE (3602879701896397 / 9007199254740992)) (-32767)
      = 16777215 / 16777216 := by
  have hgt : ¬ ((-32767 : ℚ) > (7205539501467239 / 549755813888)) := by norm_num
  have hlt : (-32767 : ℚ) < -(7205539501467239 / 549755813888) := by norm_num
  rw [parameterConversionsIEEE_0_4]
  simp only [axisValueIEEE, deadzoneValueIEEE, fl32_neg_32767, hgt, if_false, hlt, if_true]
  rw [dz04_min_diff, dz04_min_value, dz04_min_product, dz04_min_axis]

/-- With the rounding of the code, raw -32768 at the deadzone `0` is stored as
`32769 / 32768`, above 1 as in the exact reading. -/
theorem axisValueIEEE_0_low :
    axisValueIEEE (parameterConversionsIEEE 0) (-32768) = 32769 / 32768 := by
  have hgt : ¬ ((-32768 : ℚ) > 0) := by norm_num
  have hlt : (-32768 : ℚ) < -0 := by norm_num
  rw [parameterConversionsIEEE_0]
  simp only [axisValueIEEE, deadzoneValueIEEE, fl32_neg_32768, hgt, if_false, hlt, if_true]
  rw [dz0_low_diff, dz0_low_value, dz0_low_product, dz0_low_axis]

/-- C4, as stated, fails on the code's arithmetic.  At the deadzone `0.4` (a
`double` in `[0, 0.9]`) raw `32767` is stored as `-16777215 / 16777216`
(-0.99999994) and raw `-32767` as `16777215 / 16777216`, not as `-1` and `1`; at the
deadzone `0.05` the threshold is `7205539501467239 / 2 ^ 42`, which is neither
`1638.35` nor the `double` nearest to it, and the scale is not `-1 / 31128.65`. -/
theorem calibration_not_exact :
    fl64 (2 / 5) = 3602879701896397 / 9007199254740992 ∧
      (0 : ℚ) ≤ 3602879701896397 / 9007199254740992 ∧
      (3602879701896397 / 9007199254740992 : ℚ) ≤ 9 / 10 ∧
      axisValueIEEE (parameterConversionsIEEE (3602879701896397 / 9007199254740992)) 32767
        = -16777215 / 16777216 ∧
      axisValueIEEE (parameterConversionsIEEE (3602879701896397 / 9007199254740992)) (-32767)
        = 16777215 / 16777216 ∧
      axisValueIEEE (parameterConversionsIEEE (3602879701896397 / 9007199254740992)) 32767
        ≠ -1 ∧
      axisValueIEEE (parameterConversionsIEEE (3602879701896397 / 9007199254740992)) (-32767)
        ≠ 1 ∧
      fl64 (1 / 20) = 3602879701896397 / 72057594037927936 ∧
      (parameterConversionsIEEE (3602879701896397 / 72057594037927936)).unscaled_deadzone
        = 7205539501467239 / 4398046511104 ∧
      (parameterConversionsIEEE (3602879701896397 / 72057594037927936)).unscaled_deadzone
        ≠ 163835 / 100 ∧
      (parameterConversionsIEEE (3602879701896397 / 72057594037927936)).unscaled_deadzone
        ≠ fl64 (163835 / 100) ∧
      (parameterConversionsIEEE (3602879701896397 / 72057594037927936)).scale
        ≠ -1 / (3112865 / 100) := by
  refine ⟨double_0_4, by norm_num, by norm_num, axisValueIEEE_0_4_max, axisValueIEEE_0_4_min,
    ?_, ?_, double_0_05, ?_, ?_, ?_, ?_⟩
  · rw [axisValueIEEE_0_4_max]; norm_num
  · rw [axisValueIEEE_0_4_min]; norm_num
  · rw [parameterConversionsIEEE_0_05]
  · rw [parameterConversionsIEEE_0_05]; norm_num
  · rw [parameterConversionsIEEE_0_05, double_1638_35]; norm_num
  · rw [parameterConversionsIEEE_0_05]; norm_num

/-- C4, amended.  For every normalised deadzone `d` in `[0, 0.9]` the calibration is
the binary64 evaluation of `32767 * d` and of `-1 / (1 - d) / 32767`: the threshold is
within `2 ^ (-39)` of `32767 * d`; the divisor `1. - _deadzone` is positive, so the
scale is well defined, and the scale is strictly negative and within a relative
`2 ^ (-50)` of `-1 / ((1 - d) * 32767)`; raw `32767` is stored within `2 ^ (-22)` of
`-1` and raw `-32767` within `2 ^ (-22)` of `1`.  For the `double` `0.05` the
threshold is `7205539501467239 / 2 ^ 42`, within `2 ^ (-42)` of `1638.35`, and the
scale is within `2 ^ (-71)` of `-1 / 31128.65`. -/
theorem calibration_rounded (d : ℚ) (h0 : 0 ≤ d) (h9 : d ≤ 9 / 10) :
    (|(parameterConversionsIEEE d).unscaled_deadzone - 32767 * d| ≤ 1 / 2 ^ 39 ∧
      0 < fl64 (1 - d) ∧
      (parameterConversionsIEEE d).scale < 0 ∧
      |(parameterConversionsIEEE d).scale - -1 / ((1 - d) * 32767)|
        ≤ 1 / ((1 - d) * 32767) * (1 / 2 ^ 50) ∧
      |axisValueIEEE (parameterConversionsIEEE d) 32767 - -1| ≤ 1 / 2 ^ 22 ∧
      |axisValueIEEE (parameterConversionsIEEE d) (-32767) - 1| ≤ 1 / 2 ^ 22) ∧
    (fl64 (1 / 20) = 3602879701896397 / 72057594037927936 ∧
      (parameterConversionsIEEE (3602879701896397 / 72057594037927936)).unscaled_deadzone
        = 7205539501467239 / 2 ^ 42 ∧
      |(parameterConversionsIEEE (3602879701896397 / 72057594037927936)).unscaled_deadzone
        - 163835 / 100| ≤ 1 / 2 ^ 42 ∧
      |(parameterConversionsIEEE (3602879701896397 / 72057594037927936)).scale
        - -1 / (3112865 / 100)| ≤ 1 / 2 ^ 71) := by
  refine ⟨calibration_chain d h0 h9, double_0_05, ?_, ?_, ?_⟩
  · rw [parameterConversionsIEEE_0_05]; norm_num
  · rw [parameterConversionsIEEE_0_05, abs_le]; norm_num
  · rw [parameterConversionsIEEE_0_05, abs_le]; norm_num

/-- Witness of C4 amended at the `double` `0.05`, the default deadzone. -/
theorem calibration_rounded_witness :
    (0 : ℚ) ≤ 3602879701896397 / 72057594037927936 ∧
      (3602879701896397 / 72057594037927936 : ℚ) ≤ 9 / 10 ∧
      (parameterConversionsIEEE (3602879701896397 / 72057594037927936)).scale < 0 ∧
      |axisValueIEEE (parameterConversionsIEEE (3602879701896397 / 72057594037927936)) 32767
        - -1| ≤ 1 / 2 ^ 22 ∧
      |axisValueIEEE (parameterConversionsIEEE (3602879701896397 / 72057594037927936))
        (-32767) - 1| ≤ 1 / 2 ^ 22 := by
  have h := calibration_rounded (3602879701896397 / 72057594037927936) (by norm_num)
    (by norm_num)
  exact ⟨by norm_num, by norm_num, h.1.2.2.1, h.1.2.2.2.2.1, h.1.2.2.2.2.2⟩

/-! ## Snapshot writes: lemmas -/

/-- An in-range button store succeeds and replaces exactly that slot. -/
theorem setButton_ok (st : MainState) (i : Nat) (x : Int)
    (h : i < st.joy_msg.buttons.length) :
    setButton st i x
      = .ok { st with joy_msg := { st.joy_msg with buttons := st.joy_msg.buttons.set i x } } := by
  simp [setButton, vecSet, h]

/-- A button store outside the vector is undefined. -/
theorem setButton_out (st : MainState) (i : Nat) (x : Int)
    (h : st.joy_msg.buttons.length ≤ i) :
    setButton st i x = .error .vectorIndexOutOfRange := by
  simp [setButton, vecSet, Nat.not_lt.mpr h]

/-- An in-range axis store succeeds and replaces exactly that slot. -/
theorem setAxis_ok (st : MainState) (i : Nat) (x : ℚ) (h : i < st.joy_msg.axes.length) :
    setAxis st i x
      = .ok { st with joy_msg := { st.joy_msg with axes := st.joy_msg.axes.set i x } } := by
  simp [setAxis, vecSet, h]

/-- An axis store outside the vector is undefined. -/
theorem setAxis_out (st : MainState) (i : Nat) (x : ℚ) (h : st.joy_msg.axes.length ≤ i) :
    setAxis st i x = .error .vectorIndexOutOfRange := by
  simp [setAxis, vecSet, Nat.not_lt.mpr h]

/-! ## Hat motion -/

/-- Result of the `SDL_HAT_CENTERED` branch in closed form. -/
theorem hatMotion_centered (K : SDLConsts) (hK : K.HatCodesDistinct) (st : MainState)
    (hat : Nat) (hlen : 14 ≤ st.joy_msg.buttons.length) :
    hatMotion K st hat K.HAT_CENTERED
      = .ok { st with
          joy_msg := { st.joy_msg with
            buttons := (((st.joy_msg.buttons.set 10 0).set 11 0).set 12 0).set 13 0 },
          log := st.log ++ [.warnHat hat] ++ [.warnDPadReleased] } := by
  simp only [SDLConsts.HatCodesDistinct, List.nodup_cons, List.mem_cons, List.mem_singleton,
    not_or, List.not_mem_nil, not_false_eq_true, List.nodup_nil, and_true] at hK
  obtain ⟨⟨hcu, hcd, hcl, hcr⟩, -⟩ := hK
  have l10 : 10 < st.joy_msg.buttons.length := by omega
  have l11 : 11 < st.joy_msg.buttons.length := by omega
  have l12 : 12 < st.joy_msg.buttons.length := by omega
  have l13 : 13 < st.joy_msg.buttons.length := by omega
  simp [hatMotion, hcu, hcd, hcl, hcr, setButton, vecSet, report, Except.bind, Except.map,
    l10, l11, l12, l13]

/-- Result of a single directional branch in closed form: the hat value `v` equals
exactly one of the four directional codes, whose slot is `slot` and whose report is
`m`. -/
theorem hatMotion_direction (K : SDLConsts) (st : MainState) (hat v slot : Nat) (m : LogMsg)
    (hc : v ≠ K.HAT_CENTERED)
    (hsel : (v = K.HAT_UP ∧ v ≠ K.HAT_DOWN ∧ v ≠ K.HAT_LEFT ∧ v ≠ K.HAT_RIGHT ∧
              slot = 10 ∧ m = .warnDPadUp) ∨
            (v ≠ K.HAT_UP ∧ v = K.HAT_DOWN ∧ v ≠ K.HAT_LEFT ∧ v ≠ K.HAT_RIGHT ∧
              slot = 11 ∧ m = .warnDPadDown) ∨
            (v ≠ K.HAT_UP ∧ v ≠ K.HAT_DOWN ∧ v = K.HAT_LEFT ∧ v ≠ K.HAT_RIGHT ∧
              slot = 12 ∧ m = .warnDPadLeft) ∨
            (v ≠ K.HAT_UP ∧ v ≠ K.HAT_DOWN ∧ v ≠ K.HAT_LEFT ∧ v = K.HAT_RIGHT ∧
              slot = 13 ∧ m = .warnDPadRight))
    (hlen : 14 ≤ st.joy_msg.buttons.length) :
    hatMotion K st hat v
      = .ok { st with
          joy_msg := { st.joy_msg with buttons := st.joy_msg.buttons.set slot 1 },
          log := st.log ++ [.warnHat hat] ++ [m] } := by
  have l10 : 10 < st.joy_msg.buttons.length := by omega
  have l11 : 11 < st.joy_msg.buttons.length := by omega
  have l12 : 12 < st.joy_msg.buttons.length := by omega
  have l13 : 13 < st.joy_msg.buttons.length := by omega
  rcases hsel with ⟨h1, h2, h3, h4, rfl, rfl⟩ | ⟨h1, h2, h3, h4, rfl, rfl⟩ |
    ⟨h1, h2, h3, h4, rfl, rfl⟩ | ⟨h1, h2, h3, h4, rfl, rfl⟩
  · simp only [hatMotion, hc, h2, h3, h4, if_false]
    simp [← h1, setButton, vecSet, report, Except.bind, Except.map, l10]
  · simp only [hatMotion, hc, h1, h3, h4, if_false]
    simp [← h2, setButton, vecSet, report, Except.bind, Except.map, l11]
  · simp only [hatMotion, hc, h1, h2, h4, if_false]
    simp [← h3, setButton, vecSet, report, Except.bind, Except.map, l12]
  · simp only [hatMotion, hc, h1, h2, h3, if_false]
    simp [← h4, setButton, vecSet, report, Except.bind, Except.map, l13]

/-- C5: a hat event of the tracked device, applied to a snapshot that has the pad
slots 10..13: `SDL_HAT_CENTERED` stores 0 in slots 10, 11, 12, 13; `SDL_HAT_UP`,
`SDL_HAT_DOWN`, `SDL_HAT_LEFT`, `SDL_HAT_RIGHT` store 1 in slot 10, 11, 12, 13
respectively and leave every other button slot (the other pad slots included) at
its prior value; the axes and the session are unchanged in every case. -/
theorem hat_event_effect (K : SDLConsts) (hK : K.HatCodesDistinct) (cal : Calib)
    (st : MainState) (hat : Nat) (hlen : 14 ≤ st.joy_msg.buttons.length) :
    (∃ s, applyEvent K cal st (.jhat st.gameControllerIndex hat K.HAT_CENTERED) = .ok s ∧
        HatFrame st s ∧
        s.joy_msg.buttons[10]? = some 0 ∧ s.joy_msg.buttons[11]? = some 0 ∧
        s.joy_msg.buttons[12]? = some 0 ∧ s.joy_msg.buttons[13]? = some 0 ∧
        ∀ j, j ≠ 10 → j ≠ 11 → j ≠ 12 → j ≠ 13 →
          s.joy_msg.buttons[j]? = st.joy_msg.buttons[j]?) ∧
    (∃ s, applyEvent K cal st (.jhat st.gameControllerIndex hat K.HAT_UP) = .ok s ∧
        HatFrame st s ∧ s.joy_msg.buttons[10]? = some 1 ∧
        ∀ j, j ≠ 10 → s.joy_msg.buttons[j]? = st.joy_msg.buttons[j]?) ∧
    (∃ s, applyEvent K cal st (.jhat st.gameControllerIndex hat K.HAT_DOWN) = .ok s ∧
        HatFrame st s ∧ s.joy_msg.buttons[11]? = some 1 ∧
        ∀ j, j ≠ 11 → s.joy_msg.buttons[j]? = st.joy_msg.buttons[j]?) ∧
    (∃ s, applyEvent K cal st (.jhat st.gameControllerIndex hat K.HAT_LEFT) = .ok s ∧
        HatFrame st s ∧ s.joy_msg.buttons[12]? = some 1 ∧
        ∀ j, j ≠ 12 → s.joy_msg.buttons[j]? = st.joy_msg.buttons[j]?) ∧
    (∃ s, applyEvent K cal st (.jhat st.gameControllerIndex hat K.HAT_RIGHT) = .ok s ∧
        HatFrame st s ∧ s.joy_msg.buttons[13]? = some 1 ∧
        ∀ j, j ≠ 13 → s.joy_msg.buttons[j]? = st.joy_msg.buttons[j]?) := by
  have hK0 := hK
  simp only [SDLConsts.HatCodesDistinct, List.nodup_cons, List.mem_cons, List.mem_singleton,
    not_or, List.not_mem_nil, not_false_eq_true, List.nodup_nil, and_true] at hK
  obtain ⟨⟨hcu, hcd, hcl, hcr⟩, ⟨hud, hul, hur⟩, ⟨hdl, hdr⟩, hlr⟩ := hK
  have l10 : 10 < st.joy_msg.buttons.length := by omega
  have l11 : 11 < st.joy_msg.buttons.length := by omega
  have l12 : 12 < st.joy_msg.buttons.length := by omega
  have l13 : 13 < st.joy_msg.buttons.length := by omega
  have hup := hatMotion_direction K st hat K.HAT_UP 10 .warnDPadUp (Ne.symm hcu)
    (Or.inl ⟨rfl, hud, hul, hur, rfl, rfl⟩) hlen
  have hdown := hatMotion_direction K st hat K.HAT_DOWN 11 .warnDPadDown (Ne.symm hcd)
    (Or.inr (Or.inl ⟨Ne.symm hud, rfl, hdl, hdr, rfl, rfl⟩)) hlen
  have hleft := hatMotion_direction K st hat K.HAT_LEFT 12 .warnDPadLeft (Ne.symm hcl)
    (Or.inr (Or.inr (Or.inl ⟨Ne.symm hul, Ne.symm hdl, rfl, hlr, rfl, rfl⟩))) hlen
  have hright := hatMotion_direction K st hat K.HAT_RIGHT 13 .warnDPadRight (Ne.symm hcr)
    (Or.inr (Or.inr (Or.inr ⟨Ne.symm hur, Ne.symm hdr, Ne.symm hlr, rfl, rfl, rfl⟩))) hlen
  have hcen := hatMotion_centered K hK0 st hat hlen
  have app : ∀ v, applyEvent K cal st (.jhat st.gameControllerIndex hat v)
      = hatMotion K st hat v := fun v => by simp only [applyEvent, if_true]
  rw [← app] at hcen hup hdown hleft hright
  refine ⟨⟨_, hcen, ⟨rfl, rfl, rfl, rfl⟩, ?_, ?_, ?_, ?_, ?_⟩,
    ⟨_, hup, ⟨rfl, rfl, rfl, rfl⟩, ?_, ?_⟩, ⟨_, hdown, ⟨rfl, rfl, rfl, rfl⟩, ?_, ?_⟩,
    ⟨_, hleft, ⟨rfl, rfl, rfl, rfl⟩, ?_, ?_⟩, ⟨_, hright, ⟨rfl, rfl, rfl, rfl⟩, ?_, ?_⟩⟩
  · simp [List.getElem?_set, l10]
  · simp [List.getElem?_set, l11]
  · simp [List.getElem?_set, l12]
  · simp [List.getElem?_set, l13]
  · intro j h10 h11 h12 h13
    simp [List.getElem?_set, Ne.symm h10, Ne.symm h11, Ne.symm h12, Ne.symm h13]
  · simp [List.getElem?_set, l10]
  · intro j hj
    simp [List.getElem?_set, Ne.symm hj]
  · simp [List.getElem?_set, l11]
  · intro j hj
    simp [List.getElem?_set, Ne.symm hj]
  · simp [List.getElem?_set, l12]
  · intro j hj
    simp [List.getElem?_set, Ne.symm hj]
  · simp [List.getElem?_set, l13]
  · intro j hj
    simp [List.getElem?_set, Ne.symm hj]

/-- Witness of C5 under the SDL 2.0 constants, on the attached example state: after
`SDL_HAT_UP` slot 10 holds 1 and slot 11 is still 0. -/
theorem hat_event_effect_witness :
    sdl2.HatCodesDistinct ∧ 14 ≤ attachedExample.joy_msg.buttons.length ∧
      ∃ s, applyEvent sdl2 (parameterConversions (1 / 20)) attachedExample
          (.jhat attachedExample.gameControllerIndex 0 sdl2.HAT_UP) = .ok s ∧
        HatFrame attachedExample s ∧ s.joy_msg.buttons[10]? = some 1 ∧
        ∀ j, j ≠ 10 → s.joy_msg.buttons[j]? = attachedExample.joy_msg.buttons[j]? :=
  ⟨by decide, by decide,
    (hat_event_effect sdl2 (by decide) (parameterConversions (1 / 20)) attachedExample 0
      (by decide)).2.1⟩

/-! ## Button accumulation -/

/-- A button event is a store into its own slot, whatever device it comes from. -/
theorem applyEvent_buttonWrite (K : SDLConsts) (cal : Calib) (st : MainState)
    (b : ButtonWrite) :
    applyEvent K cal st b.event = setButton st b.button b.value := by
  cases b with
  | mk down which button => cases down <;> simp [ButtonWrite.event, ButtonWrite.value, applyEvent]

/-- A batch of in-range button events runs to completion; afterwards each slot
holds the last value written to it, or its prior value, and nothing else changed. -/
theorem pollEvents_buttonWrites (K : SDLConsts) (cal : Calib) (batch : List ButtonWrite) :
    ∀ st : MainState, (∀ b ∈ batch, b.button < st.joy_msg.buttons.length) →
      ∃ s, pollEvents K cal st (batch.map ButtonWrite.event) = .ok s ∧
        s.joy_msg.buttons.length = st.joy_msg.buttons.length ∧
        s.joy_msg.axes = st.joy_msg.axes ∧
        s.gameController = st.gameController ∧
        s.gameControllerIndex = st.gameControllerIndex ∧
        s.published = st.published ∧
        ∀ j, s.joy_msg.buttons[j]?
          = match lastWrite batch j with
            | some x => some x
            | none => st.joy_msg.buttons[j]? := by
  induction batch with
  | nil =>
    intro st _
    exact ⟨st, rfl, rfl, rfl, rfl, rfl, rfl, fun j => by simp [lastWrite]⟩
  | cons b bs ih =>
    intro st hin
    have hb : b.button < st.joy_msg.buttons.length := hin b (List.mem_cons_self _ _)
    have hstep := setButton_ok st b.button b.value hb
    obtain ⟨s, hs, hlen, hax, hgc, hgi, hpub, hget⟩ :=
      ih { st with joy_msg := { st.joy_msg with
            buttons := st.joy_msg.buttons.set b.button b.value } }
        (fun b1 hb1 => by
          simpa using hin b1 (List.mem_cons_of_mem _ hb1))
    refine ⟨s, ?_, by simpa using hlen, hax, hgc, hgi, hpub, fun j => ?_⟩
    · simp only [List.map_cons, pollEvents, applyEvent_buttonWrite, hstep]
      exact hs
    · rw [hget j]
      simp only [lastWrite]
      cases lastWrite bs j with
      | some x => rfl
      | none =>
        by_cases hj : b.button = j
        · subst hj
          simp [List.getElem?_set, hb]
        · simp [List.getElem?_set, hj]

/-- C6: button accumulation is last-write-wins in polling order.  For every state
and every batch of button events with in-range indices, polling the batch succeeds
and each button slot then holds the value of the last event of the batch that
addresses it, or its prior value if none does; in particular, for an in-range index
`i`, down then up leaves `buttons[i] = 0` and up then down leaves `buttons[i] = 1`. -/
theorem button_last_write_wins (K : SDLConsts) (cal : Calib) (st : MainState)
    (batch : List ButtonWrite) (hin : ∀ b ∈ batch, b.button < st.joy_msg.buttons.length)
    (i : Nat) (w1 w2 : Int) (hi : i < st.joy_msg.buttons.length) :
    (∃ s, pollEvents K cal st (batch.map ButtonWrite.event) = .ok s ∧
        s.joy_msg.axes = st.joy_msg.axes ∧
        ∀ j, s.joy_msg.buttons[j]?
          = match lastWrite batch j with
            | some x => some x
            | none => st.joy_msg.buttons[j]?) ∧
    (∃ s, pollEvents K cal st [.jbuttonDown w1 i, .jbuttonUp w2 i] = .ok s ∧
        s.joy_msg.buttons[i]? = some 0) ∧
    (∃ s, pollEvents K cal st [.jbuttonUp w1 i, .jbuttonDown w2 i] = .ok s ∧
        s.joy_msg.buttons[i]? = some 1) := by
  refine ⟨?_, ?_, ?_⟩
  · obtain ⟨s, hs, -, hax, -, -, -, hget⟩ := pollEvents_buttonWrites K cal batch st hin
    exact ⟨s, hs, hax, hget⟩
  · obtain ⟨s, hs, -, -, -, -, -, hget⟩ :=
      pollEvents_buttonWrites K cal [⟨true, w1, i⟩, ⟨false, w2, i⟩] st
        (by intro b hb; simp at hb; rcases hb with rfl | rfl <;> exact hi)
    refine ⟨s, by simpa [ButtonWrite.event] using hs, ?_⟩
    rw [hget i]; simp [lastWrite, ButtonWrite.value]
  · obtain ⟨s, hs, -, -, -, -, -, hget⟩ :=
      pollEvents_buttonWrites K cal [⟨false, w1, i⟩, ⟨true, w2, i⟩] st
        (by intro b hb; simp at hb; rcases hb with rfl | rfl <;> exact hi)
    refine ⟨s, by simpa [ButtonWrite.event] using hs, ?_⟩
    rw [hget i]; simp [lastWrite, ButtonWrite.value]

/-- Witness of C6 on the attached example state: the batch down 3, up 3, down 5,
and the index 2 for the two-event sequences. -/
theorem button_last_write_wins_witness :
    (∀ b ∈ [(⟨true, 0, 3⟩ : ButtonWrite), ⟨false, 0, 3⟩, ⟨true, 0, 5⟩],
        b.button < attachedExample.joy_msg.buttons.length) ∧
      2 < attachedExample.joy_msg.buttons.length ∧
      (∃ s, pollEvents sdl2 (parameterConversions (1 / 20)) attachedExample
            ([(⟨true, 0, 3⟩ : ButtonWrite), ⟨false, 0, 3⟩, ⟨true, 0, 5⟩].map
              ButtonWrite.event) = .ok s ∧
          s.joy_msg.axes = attachedExample.joy_msg.axes ∧
          ∀ j, s.joy_msg.buttons[j]?
            = match lastWrite [⟨true, 0, 3⟩, ⟨false, 0, 3⟩, ⟨true, 0, 5⟩] j with
              | some x => some x
              | none => attachedExample.joy_msg.buttons[j]?) ∧
      (∃ s, pollEvents sdl2 (parameterConversions (1 / 20)) attachedExample
            [.jbuttonDown 0 2, .jbuttonUp 0 2] = .ok s ∧
          s.joy_msg.buttons[2]? = some 0) ∧
      (∃ s, pollEvents sdl2 (parameterConversions (1 / 20)) attachedExample
            [.jbuttonUp 0 2, .jbuttonDown 0 2] = .ok s ∧
          s.joy_msg.buttons[2]? = some 1) :=
  ⟨by decide, by decide,
    button_last_write_wins sdl2 (parameterConversions (1 / 20)) attachedExample
      [⟨true, 0, 3⟩, ⟨false, 0, 3⟩, ⟨true, 0, 5⟩] (by decide) 2 0 0 (by decide)⟩

/-! ## Device removal -/

/-- C7: in an attached state, a device-removed event whose source index differs
from the tracked index leaves the whole state unchanged: the handle stays open and
the tracked index keeps its value. -/
theorem deviceRemoved_other_unchanged (K : SDLConsts) (cal : Calib) (st : MainState)
    (which : Int) (hatt : st.gameController.isSome = true)
    (hne : which ≠ st.gameControllerIndex) :
    applyEvent K cal st (.jdeviceRemoved which) = .ok st ∧
      ((applyEvent K cal st (.jdeviceRemoved which)).toOption.bind
        fun s => s.gameController).isSome = true := by
  have h : applyEvent K cal st (.jdeviceRemoved which) = .ok st := by
    simp only [applyEvent, hne, if_false]
  refine ⟨h, ?_⟩
  rw [h]
  simpa [Except.toOption] using hatt

/-- Witness of C7: the attached example state tracks index 0; device 3 is removed. -/
theorem deviceRemoved_other_unchanged_witness :
    attachedExample.gameController.isSome = true ∧
      (3 : Int) ≠ attachedExample.gameControllerIndex ∧
      applyEvent sdl2 (parameterConversions (1 / 20)) attachedExample (.jdeviceRemoved 3)
        = .ok attachedExample :=
  ⟨by decide, by decide,
    (deviceRemoved_other_unchanged sdl2 (parameterConversions (1 / 20)) attachedExample 3
      (by decide) (by decide)).1⟩

/-! ## Indices outside the snapshot -/

/-- C8, as stated, fails: on the attached example state (15 button slots, 6 axis
slots) a button-down event for button 15, a button-up event for button 200 and an
axis event of the tracked device for axis 6 are not dropped; each is a store outside
the vector, and no state (so no unchanged snapshot and no report) results. -/
theorem out_of_range_event_not_dropped :
    applyEvent sdl2 (parameterConversions (1 / 20)) attachedExample (.jbuttonDown 0 15)
        = .error .vectorIndexOutOfRange ∧
      applyEvent sdl2 (parameterConversions (1 / 20)) attachedExample (.jbuttonUp 0 200)
        = .error .vectorIndexOutOfRange ∧
      applyEvent sdl2 (parameterConversions (1 / 20)) attachedExample (.jaxis 0 6 1000)
        = .error .vectorIndexOutOfRange ∧
      ¬ ∃ s, applyEvent sdl2 (parameterConversions (1 / 20)) attachedExample
          (.jbuttonDown 0 15) = .ok s := by
  have h1 : applyEvent sdl2 (parameterConversions (1 / 20)) attachedExample
      (.jbuttonDown 0 15) = .error .vectorIndexOutOfRange :=
    setButton_out attachedExample 15 1 (by decide)
  have h2 : applyEvent sdl2 (parameterConversions (1 / 20)) attachedExample
      (.jbuttonUp 0 200) = .error .vectorIndexOutOfRange :=
    setButton_out attachedExample 200 0 (by decide)
  refine ⟨h1, h2, ?_, ?_⟩
  · have h0 : (0 : Int) = attachedExample.gameControllerIndex := by decide
    simp only [applyEvent, h0, if_true]
    rw [setAxis_out attachedExample 6 _ (by decide)]
    rfl
  · rintro ⟨s, hs⟩
    rw [h1] at hs
    cases hs

/-- C8, amended: the switch has no bounds check.  A button-down or button-up event
whose index is outside the button slots, and an axis event of the tracked device
whose index is outside the axis slots, is an out-of-range vector store (undefined
behaviour): no event is dropped and nothing is reported.  An axis event of another
device is ignored whatever its index: state, snapshot and log are unchanged. -/
theorem out_of_range_event_unchecked (K : SDLConsts) (cal : Calib) (st : MainState)
    (which : Int) (button axis : Nat) (value : Int)
    (hb : st.joy_msg.buttons.length ≤ button) (ha : st.joy_msg.axes.length ≤ axis) :
    applyEvent K cal st (.jbuttonDown which button) = .error .vectorIndexOutOfRange ∧
      applyEvent K cal st (.jbuttonUp which button) = .error .vectorIndexOutOfRange ∧
      (which = st.gameControllerIndex →
        applyEvent K cal st (.jaxis which axis value) = .error .vectorIndexOutOfRange) ∧
      (which ≠ st.gameControllerIndex →
        applyEvent K cal st (.jaxis which axis value) = .ok st) := by
  refine ⟨setButton_out st button 1 hb, setButton_out st button 0 hb, fun h => ?_, fun h => ?_⟩
  · simp only [applyEvent, h, if_true]
    rw [setAxis_out st axis _ ha]
    rfl
  · simp only [applyEvent, h, if_false]

/-- Witness of C8 amended on the attached example state: button 15 and axis 6 are
the first indices outside its 15 button slots and 6 axis slots. -/
theorem out_of_range_event_unchecked_witness :
    attachedExample.joy_msg.buttons.length ≤ 15 ∧ attachedExample.joy_msg.axes.length ≤ 6 ∧
      applyEvent sdl2 (parameterConversions (1 / 20)) attachedExample (.jbuttonUp 7 15)
        = .error .vectorIndexOutOfRange ∧
      applyEvent sdl2 (parameterConversions (1 / 20)) attachedExample (.jaxis 7 6 (-5))
        = .ok attachedExample := by
  have h := out_of_range_event_unchecked sdl2 (parameterConversions (1 / 20))
    attachedExample 7 15 6 (-5) (by decide) (by decide)
  exact ⟨by decide, by decide, h.2.1, h.2.2.2 (by decide)⟩

/-! ## Device discovery: theorems -/

/-- An index below `2^15` is stored in `_gameControllerIndex` unchanged. -/
theorem toInt16_of_lt (i : Nat) (h : i < 32768) : toInt16 (i : Int) = (i : Int) := by
  unfold toInt16
  omega

/-- A scan over devices none of which is usable leaves the session unattached and
does not touch the tracked index, the snapshot or the published messages. -/
theorem discoverFrom_none (devs : List Device) :
    ∀ (i : Nat) (st : MainState), st.gameController = none →
      (∀ d ∈ devs, d.usable = false) →
      (discoverFrom i devs st).gameController = none ∧
        (discoverFrom i devs st).gameControllerIndex = st.gameControllerIndex ∧
        (discoverFrom i devs st).joy_msg = st.joy_msg ∧
        (discoverFrom i devs st).published = st.published := by
  induction devs with
  | nil => intro i st h _; exact ⟨h, rfl, rfl, rfl⟩
  | cons d ds ih =>
    intro i st hst hall
    have hd : d.usable = false := hall d (List.mem_cons_self _ _)
    have hds : ∀ x ∈ ds, x.usable = false := fun x hx => hall x (List.mem_cons_of_mem _ hx)
    unfold discoverFrom
    cases hg : d.isGameController with
    | false => simpa using ih (i + 1) st hst hds
    | true =>
      cases ho : d.joystickOpen with
      | some h => simp [Device.usable, hg, ho] at hd
      | none =>
        simpa [report] using
          ih (i + 1) (report .errorWouldNotOpen { st with gameController := none }) rfl hds

/-- A scan that meets only unusable devices before a usable one attaches that one
and stores its index (narrowed to `int16_t`). -/
theorem discoverFrom_first (pre : List Device) (d : Device) (post : List Device) (h : Nat)
    (hg : d.isGameController = true) (ho : d.joystickOpen = some h) :
    ∀ (i : Nat) (st : MainState), (∀ x ∈ pre, x.usable = false) →
      (discoverFrom i (pre ++ d :: post) st).gameController = some h ∧
        (discoverFrom i (pre ++ d :: post) st).gameControllerIndex
          = toInt16 ((i + pre.length : Nat) : Int) ∧
        (discoverFrom i (pre ++ d :: post) st).joy_msg = st.joy_msg ∧
        (discoverFrom i (pre ++ d :: post) st).published = st.published := by
  induction pre with
  | nil =>
    intro i st _
    simp [discoverFrom, hg, ho]
  | cons x xs ih =>
    intro i st hall
    have hx : x.usable = false := hall x (List.mem_cons_self _ _)
    have hxs : ∀ y ∈ xs, y.usable = false := fun y hy => hall y (List.mem_cons_of_mem _ hy)
    have hidx : i + 1 + xs.length = i + (x :: xs).length := by simp; omega
    rw [List.cons_append]
    unfold discoverFrom
    cases hxg : x.isGameController with
    | false =>
      simp only [Bool.false_eq_true, if_false]
      rw [← hidx]
      exact ih (i + 1) st hxs
    | true =>
      cases hxo : x.joystickOpen with
      | some h1 => simp [Device.usable, hxg, hxo] at hx
      | none =>
        simp only [if_true]
        rw [← hidx]
        simpa [report] using
          ih (i + 1) (report .errorWouldNotOpen { st with gameController := none }) hxs

/-- C10: with no device attached, discovery over the connected devices attaches the
lowest-index device that is a game controller and opens (every device before it is
either not a game controller or fails to open, and is skipped), and stores that
index as the tracked index (indices fit `int16_t`); over a list without such a
device the session stays unattached and the tracked index keeps its value.  The
snapshot is untouched in both cases. -/
theorem discover_lowest_usable (st : MainState) (hst : st.gameController = none)
    (pre : List Device) (d : Device) (post : List Device) (h : Nat)
    (hpre : ∀ x ∈ pre, x.usable = false)
    (hg : d.isGameController = true) (ho : d.joystickOpen = some h)
    (hfit : pre.length < 32768)
    (others : List Device) (hothers : ∀ x ∈ others, x.usable = false) :
    ((discover (pre ++ d :: post) st).gameController = some h ∧
        (discover (pre ++ d :: post) st).gameControllerIndex = (pre.length : Int) ∧
        (discover (pre ++ d :: post) st).joy_msg = st.joy_msg) ∧
      ((discover others st).gameController = none ∧
        (discover others st).gameControllerIndex = st.gameControllerIndex ∧
        (discover others st).joy_msg = st.joy_msg) := by
  have hd : ∀ devs, discover devs st = discoverFrom 0 devs st := fun devs => by
    simp [discover, hst]
  rw [hd, hd]
  obtain ⟨a1, a2, a3, -⟩ := discoverFrom_first pre d post h hg ho 0 st hpre
  obtain ⟨b1, b2, b3, -⟩ := discoverFrom_none others 0 st hst hothers
  refine ⟨⟨a1, ?_, a3⟩, b1, b2, b3⟩
  rw [a2, Nat.zero_add, toInt16_of_lt _ hfit]

/-- Witness of C10 on the initial state: device 0 is no game controller, device 1
is one but does not open, device 2 opens with handle 7; a list holding only the
first two attaches nothing. -/
theorem discover_lowest_usable_witness :
    (initialState sdl2).gameController = none ∧
      ((discover ([⟨false, some 5⟩, ⟨true, none⟩] ++ ⟨true, some 7⟩ :: [⟨true, some 9⟩])
            (initialState sdl2)).gameController = some 7 ∧
        (discover ([⟨false, some 5⟩, ⟨true, none⟩] ++ ⟨true, some 7⟩ :: [⟨true, some 9⟩])
            (initialState sdl2)).gameControllerIndex = 2) ∧
      ((discover [⟨false, some 5⟩, ⟨true, none⟩] (initialState sdl2)).gameController = none ∧
        (discover [⟨false, some 5⟩, ⟨true, none⟩] (initialState sdl2)).gameControllerIndex
          = -1) := by
  have h := discover_lowest_usable (initialState sdl2) rfl [⟨false, some 5⟩, ⟨true, none⟩]
    ⟨true, some 7⟩ [⟨true, some 9⟩] 7 (by decide) rfl rfl (by decide)
    [⟨false, some 5⟩, ⟨true, none⟩] (by decide)
  exact ⟨rfl, ⟨h.1.1, h.1.2.1⟩, ⟨h.2.1, h.2.2.1⟩⟩

/-! ## The loop: theorems -/

/-- Every state has its own shape. -/
theorem SameShape.refl (st : MainState) : SameShape st st := ⟨rfl, rfl, rfl⟩

/-- Shape preservation composes. -/
theorem SameShape.trans {a b c : MainState} (h1 : SameShape a b) (h2 : SameShape b c) :
    SameShape a c :=
  ⟨h2.1.trans h1.1, h2.2.1.trans h1.2.1, h2.2.2.trans h1.2.2⟩

/-- One conditional store of the hat case succeeds on a snapshot with the pad slots. -/
theorem hat_step_ok (st s : MainState) (hs : SameShape st s) (c : Prop) [Decidable c]
    (i : Nat) (x : Int) (m : LogMsg) (hi : i < st.joy_msg.buttons.length) :
    ∃ s1, (if c then (setButton s i x).map (report m) else .ok s) = .ok s1 ∧
      SameShape st s1 := by
  by_cases hc : c
  · have hi1 : i < s.joy_msg.buttons.length := by rw [hs.2.1]; exact hi
    refine ⟨_, by simp only [hc, if_true, setButton_ok s i x hi1]; rfl, ?_⟩
    exact ⟨by simpa [report] using hs.1, by simpa [report] using hs.2.1,
      by simpa [report] using hs.2.2⟩
  · exact ⟨s, by simp only [hc, if_false], hs⟩

/-- The hat case succeeds on every snapshot with the pad slots, for every hat value. -/
theorem hatMotion_ok (K : SDLConsts) (st : MainState) (hat value : Nat)
    (hlen : 14 ≤ st.joy_msg.buttons.length) :
    ∃ s, hatMotion K st hat value = .ok s ∧ SameShape st s := by
  have l10 : 10 < st.joy_msg.buttons.length := by omega
  have l11 : 11 < st.joy_msg.buttons.length := by omega
  have l12 : 12 < st.joy_msg.buttons.length := by omega
  have l13 : 13 < st.joy_msg.buttons.length := by omega
  have h1 : ∃ s1, (if value = K.HAT_CENTERED then
        (((setButton (report (.warnHat hat) st) 10 0).bind fun s => setButton s 11 0).bind
          fun s => setButton s 12 0).bind
          fun s => (setButton s 13 0).map (report .warnDPadReleased)
      else .ok (report (.warnHat hat) st)) = .ok s1 ∧ SameShape st s1 := by
    by_cases hc : value = K.HAT_CENTERED
    · refine ⟨_, by
        simp only [hc, if_true]
        simp [setButton, vecSet, report, Except.bind, Except.map, l10, l11, l12, l13]
        rfl, ?_⟩
      exact ⟨rfl, by simp, rfl⟩
    · exact ⟨report (.warnHat hat) st, by simp only [hc, if_false], ⟨rfl, rfl, rfl⟩⟩
  obtain ⟨s1, e1, p1⟩ := h1
  obtain ⟨s2, e2, p2⟩ := hat_step_ok st s1 p1 (value = K.HAT_UP) 10 1 .warnDPadUp l10
  obtain ⟨s3, e3, p3⟩ := hat_step_ok st s2 p2 (value = K.HAT_DOWN) 11 1 .warnDPadDown l11
  obtain ⟨s4, e4, p4⟩ := hat_step_ok st s3 p3 (value = K.HAT_LEFT) 12 1 .warnDPadLeft l12
  obtain ⟨s5, e5, p5⟩ := hat_step_ok st s4 p4 (value = K.HAT_RIGHT) 13 1 .warnDPadRight l13
  have bind_ok : ∀ (s : MainState) (f : MainState → Except Fault MainState),
      Except.bind (Except.ok s) f = f s := fun _ _ => rfl
  refine ⟨s5, ?_, p5⟩
  simp only [hatMotion, e1, bind_ok, e2, e3, e4, e5]

/-- An event whose stores are in range is applied without fault; slot counts and
published messages are unchanged. -/
theorem applyEvent_ok (K : SDLConsts) (cal : Calib) (st : MainState) (e : SDL_Event)
    (hr : EventInRange st.joy_msg.axes.length st.joy_msg.buttons.length e) :
    ∃ s, applyEvent K cal st e = .ok s ∧ SameShape st s := by
  cases e with
  | jaxis which axis value =>
    by_cases hw : which = st.gameControllerIndex
    · refine ⟨_, by simp only [applyEvent, hw, if_true, setAxis_ok st axis _ hr]; rfl, ?_⟩
      exact ⟨by simp [report], rfl, rfl⟩
    · exact ⟨st, by simp only [applyEvent, hw, if_false], SameShape.refl st⟩
  | jbuttonDown which button =>
    exact ⟨_, setButton_ok st button 1 hr, ⟨rfl, by simp, rfl⟩⟩
  | jbuttonUp which button =>
    exact ⟨_, setButton_ok st button 0 hr, ⟨rfl, by simp, rfl⟩⟩
  | jhat which hat value =>
    by_cases hw : which = st.gameControllerIndex
    · obtain ⟨s, hs, hp⟩ := hatMotion_ok K st hat value hr
      exact ⟨s, by simp only [applyEvent, hw, if_true]; exact hs, hp⟩
    · exact ⟨st, by simp only [applyEvent, hw, if_false], SameShape.refl st⟩
  | jdeviceRemoved which =>
    by_cases hw : which = st.gameControllerIndex
    · exact ⟨{ st with gameControllerIndex := -1, gameController := none },
        by simp only [applyEvent, hw, if_true], ⟨rfl, rfl, rfl⟩⟩
    · exact ⟨st, by simp only [applyEvent, hw, if_false], SameShape.refl st⟩
  | other t => exact ⟨st, rfl, SameShape.refl st⟩

/-- A queue of events whose stores are in range is drained without fault. -/
theorem pollEvents_ok (K : SDLConsts) (cal : Calib) (events : List SDL_Event) :
    ∀ st : MainState,
      (∀ e ∈ events, EventInRange st.joy_msg.axes.length st.joy_msg.buttons.length e) →
      ∃ s, pollEvents K cal st events = .ok s ∧ SameShape st s := by
  induction events with
  | nil => intro st _; exact ⟨st, rfl, SameShape.refl st⟩
  | cons e es ih =>
    intro st hall
    obtain ⟨s1, h1, p1⟩ := applyEvent_ok K cal st e (hall e (List.mem_cons_self _ _))
    obtain ⟨s2, h2, p2⟩ := ih s1 (fun x hx => by
      rw [p1.1, p1.2.1]; exact hall x (List.mem_cons_of_mem _ hx))
    exact ⟨s2, by simp only [pollEvents, h1]; exact h2, p1.trans p2⟩

/-- Discovery never touches the snapshot or the published messages. -/
theorem discoverFrom_frame (devs : List Device) :
    ∀ (i : Nat) (st : MainState),
      (discoverFrom i devs st).joy_msg = st.joy_msg ∧
        (discoverFrom i devs st).published = st.published := by
  induction devs with
  | nil => intro i st; exact ⟨rfl, rfl⟩
  | cons d ds ih =>
    intro i st
    unfold discoverFrom
    cases hg : d.isGameController with
    | false => simpa using ih (i + 1) st
    | true =>
      cases ho : d.joystickOpen with
      | some h => simp
      | none =>
        simpa [report] using
          ih (i + 1) (report .errorWouldNotOpen { st with gameController := none })

/-- The guarded discovery step never touches the snapshot or the published messages. -/
theorem discover_frame (devs : List Device) (st : MainState) :
    (discover devs st).joy_msg = st.joy_msg ∧ (discover devs st).published = st.published := by
  unfold discover
  split
  · exact discoverFrom_frame devs 0 st
  · exact ⟨rfl, rfl⟩

/-- An iteration whose discovery step attaches nothing publishes nothing and sleeps
on `nojoy_rate`, whatever events are queued. -/
theorem iteration_unattached (K : SDLConsts) (cal : Calib) (st : MainState)
    (devs : List Device) (events : List SDL_Event)
    (h : (discover devs st).gameController = none) :
    iteration K cal st devs events = .ok (discover devs st, .nojoy_rate) := by
  simp [iteration, h, sleepRate, Except.map]

/-- A run in which discovery never meets a usable device: every iteration sleeps on
`nojoy_rate`, nothing is published and the session stays unattached. -/
theorem run_never_discovered (K : SDLConsts) (cal : Calib)
    (ticks : List (List Device × List SDL_Event)) :
    ∀ st : MainState, st.gameController = none →
      (∀ t ∈ ticks, ∀ d ∈ t.1, d.usable = false) →
      ∃ s, run K cal st ticks = .ok (s, List.replicate ticks.length .nojoy_rate) ∧
        s.published = st.published ∧ s.gameController = none := by
  induction ticks with
  | nil => intro st hst _; exact ⟨st, rfl, rfl, hst⟩
  | cons t ts ih =>
    intro st hst hall
    obtain ⟨devs, events⟩ := t
    have hd : discover devs st = discoverFrom 0 devs st := by simp [discover, hst]
    obtain ⟨g1, -, -, g4⟩ :=
      discoverFrom_none devs 0 st hst (hall (devs, events) (List.mem_cons_self _ _))
    rw [← hd] at g1 g4
    obtain ⟨s, hs, hp, hg⟩ := ih (discover devs st) g1
      (fun x hx => hall x (List.mem_cons_of_mem _ hx))
    refine ⟨s, ?_, hp.trans g4, hg⟩
    simp only [run, iteration_unattached K cal st devs events g1, hs, List.length_cons,
      List.replicate_succ]

/-- C9: one iteration of the loop, with queued events whose stores are in range.
If the session is attached after the discovery step, the iteration publishes exactly
one message, the snapshot as it stands after the events (with no event queued: the
snapshot as it was).  If it is not attached, the iteration publishes nothing and
sleeps on `nojoy_rate`.  In a run whose discovery never meets a usable device,
starting unattached, nothing is ever published and every sleep is on `nojoy_rate`. -/
theorem iteration_emission (K : SDLConsts) (cal : Calib) (st : MainState)
    (devs : List Device) (events : List SDL_Event)
    (hr : ∀ e ∈ events, EventInRange st.joy_msg.axes.length st.joy_msg.buttons.length e)
    (ticks : List (List Device × List SDL_Event))
    (hticks : ∀ t ∈ ticks, ∀ d ∈ t.1, d.usable = false) :
    ((discover devs st).gameController.isSome = true →
      (∃ s r, iteration K cal st devs events = .ok (s, r) ∧
        s.published = st.published ++ [s.joy_msg]) ∧
      ∃ r, iteration K cal st devs [] = .ok (publish (discover devs st), r) ∧
        (publish (discover devs st)).published = st.published ++ [st.joy_msg]) ∧
    ((discover devs st).gameController.isSome = false →
      ∃ s, iteration K cal st devs events = .ok (s, .nojoy_rate) ∧
        s.published = st.published) ∧
    (st.gameController = none →
      ∃ s, run K cal st ticks = .ok (s, List.replicate ticks.length .nojoy_rate) ∧
        s.published = st.published) := by
  obtain ⟨f1, f2⟩ := discover_frame devs st
  refine ⟨fun hatt => ⟨?_, ?_⟩, fun hun => ?_, fun hst => ?_⟩
  · obtain ⟨s, hs, hp⟩ := pollEvents_ok K cal events (discover devs st) (by rw [f1]; exact hr)
    refine ⟨publish s, sleepRate (publish s), ?_, ?_⟩
    · simp [iteration, hatt, hs, Except.map]
    · simp [publish, hp.2.2, f2]
  · refine ⟨sleepRate (publish (discover devs st)), ?_, ?_⟩
    · simp [iteration, hatt, pollEvents, Except.map]
    · simp [publish, f1, f2]
  · have hnone : (discover devs st).gameController = none := by
      cases hg : (discover devs st).gameController with
      | none => rfl
      | some h => rw [hg] at hun; simp at hun
    exact ⟨discover devs st, iteration_unattached K cal st devs events hnone, f2⟩
  · obtain ⟨s, hs, hp, -⟩ := run_never_discovered K cal ticks st hst hticks
    exact ⟨s, hs, hp⟩

/-- Witness of C9.  On the attached example state, an iteration with a button and an
axis event publishes one message; on the initial state, with one device that does
not open, an iteration publishes nothing, and three such iterations sleep on
`nojoy_rate` three times. -/
theorem iteration_emission_witness :
    (∀ e ∈ [SDL_Event.jbuttonDown 0 3, SDL_Event.jaxis 0 1 20000],
        EventInRange attachedExample.joy_msg.axes.length
          attachedExample.joy_msg.buttons.length e) ∧
      (∃ s r, iteration sdl2 (parameterConversions (1 / 20)) attachedExample []
          [.jbuttonDown 0 3, .jaxis 0 1 20000] = .ok (s, r) ∧
        s.published = attachedExample.published ++ [s.joy_msg]) ∧
      (∃ s, iteration sdl2 (parameterConversions (1 / 20)) (initialState sdl2)
          [⟨true, none⟩] [.jbuttonDown 0 3, .jaxis 0 1 20000] = .ok (s, .nojoy_rate) ∧
        s.published = (initialState sdl2).published) ∧
      (∃ s, run sdl2 (parameterConversions (1 / 20)) (initialState sdl2)
          [([⟨true, none⟩], []), ([], [.other 0]), ([⟨false, some 4⟩], [])]
            = .ok (s, [.nojoy_rate, .nojoy_rate, .nojoy_rate]) ∧
        s.published = []) := by
  have hr : ∀ e ∈ [SDL_Event.jbuttonDown 0 3, SDL_Event.jaxis 0 1 20000],
      EventInRange attachedExample.joy_msg.axes.length
        attachedExample.joy_msg.buttons.length e := by
    intro e he
    simp only [List.mem_cons, List.mem_singleton, List.not_mem_nil, or_false] at he
    rcases he with rfl | rfl <;> simp [EventInRange, attachedExample, initialState, initialJoyMsg, sdl2]
  have hr0 : ∀ e ∈ [SDL_Event.jbuttonDown 0 3, SDL_Event.jaxis 0 1 20000],
      EventInRange (initialState sdl2).joy_msg.axes.length
        (initialState sdl2).joy_msg.buttons.length e := hr
  have hticks : ∀ t ∈ [(([⟨true, none⟩] : List Device), ([] : List SDL_Event)),
      ([], [.other 0]), ([⟨false, some 4⟩], [])], ∀ d ∈ t.1, d.usable = false := by
    decide
  have h1 := iteration_emission sdl2 (parameterConversions (1 / 20)) attachedExample []
    [.jbuttonDown 0 3, .jaxis 0 1 20000] hr [] (by simp)
  have h2 := iteration_emission sdl2 (parameterConversions (1 / 20)) (initialState sdl2)
    [⟨true, none⟩] [.jbuttonDown 0 3, .jaxis 0 1 20000] hr0
    [([⟨true, none⟩], []), ([], [.other 0]), ([⟨false, some 4⟩], [])] hticks
  exact ⟨hr, (h1.1 (by decide)).1, h2.2.1 (by decide), h2.2.2 rfl⟩

end Joy
